import Mathlib

/-!
Verification of the firsttracks pathfinder core (src/pathfinder/src/azimuth.rs and
src/pathfinder/src/find_path.rs), shallowly embedded in Lean.

Conventions of the embedding:
* Rust f64 values are modelled as real numbers; f64 comparisons and arithmetic
  become the corresponding real operations.
* A decoded raster (Rust Vec<Vec<f64>>) is modelled as a total function
  ℕ → ℕ → ℝ together with explicit height/width parameters; every index the
  embedded algorithms read is within the guarded ranges of the source loops.
* Rust `as usize` casts of possibly-negative isize values wrap modulo 2^64
  (usizeWrap below), as in the source.
* Rust usize subtraction is modelled with Nat.sub where the source guarantees
  no underflow; the two subtractions that can underflow in
  compute_azimuths_from_array are modelled with a checked subtraction that
  surfaces the debug-build panic as an error value.
-/

namespace Firsttracks

/-- Rust `as usize` on an isize value: wrap modulo 2^64. -/
def usizeWrap (z : ℤ) : ℕ := (z % (2 ^ 64)).toNat

/-- The nine compass sectors of azimuth.rs (enum Aspect). -/
inductive Aspect where
  | North
  | Northeast
  | East
  | Southeast
  | South
  | Southwest
  | West
  | Northwest
  | Flat
deriving DecidableEq

/-- Aspect::contains_azimuth from azimuth.rs: whether a bearing falls within the
sector, widened by the optional tolerance (defaulting to 0 via unwrap_or). -/
def Aspect.contains_azimuth (s : Aspect) (azimuth : ℝ) (tolerance : Option ℝ) : Prop :=
  let t : ℝ := tolerance.getD 0
  match s with
  | Aspect.Northeast => (22.5 - t) ≤ azimuth ∧ azimuth ≤ (67.5 + t)
  | Aspect.East => (67.5 - t) ≤ azimuth ∧ azimuth ≤ (112.5 + t)
  | Aspect.Southeast => (112.5 - t) ≤ azimuth ∧ azimuth ≤ (157.5 + t)
  | Aspect.South => (157.5 - t) ≤ azimuth ∧ azimuth ≤ (202.5 + t)
  | Aspect.Southwest => (202.5 - t) ≤ azimuth ∧ azimuth ≤ (247.5 + t)
  | Aspect.West => (247.5 - t) ≤ azimuth ∧ azimuth ≤ (292.5 + t)
  | Aspect.Northwest => (292.5 - t) ≤ azimuth ∧ azimuth ≤ (337.5 + t)
  | Aspect.North =>
      ((0.0 - t) ≤ azimuth ∧ azimuth ≤ (22.5 + t))
        ∨ ((337.5 - t) ≤ azimuth ∧ azimuth ≤ 360.0)
  | Aspect.Flat => azimuth = -1.0

/-- Aspect::from_azimuth from azimuth.rs. -/
noncomputable def Aspect.from_azimuth (azimuth : ℝ) : Aspect :=
  if azimuth = -1.0 then Aspect.Flat
  else if azimuth < 22.5 then Aspect.North
  else if azimuth < 67.5 then Aspect.Northeast
  else if azimuth < 112.5 then Aspect.East
  else if azimuth < 157.5 then Aspect.Southeast
  else if azimuth < 202.5 then Aspect.South
  else if azimuth < 247.5 then Aspect.Southwest
  else if azimuth < 292.5 then Aspect.West
  else if azimuth < 337.5 then Aspect.Northwest
  else Aspect.North

/-- A decoded raster: total function from (row, col) to value.  The source
stores Vec<Vec<f64>>; all reads performed by the embedded algorithms are
within the bounds guaranteed by the guarded loop ranges. -/
abbrev Grid := ℕ → ℕ → ℝ

/-- Pointwise update of a grid cell, modelling `g[i][j] = v`. -/
def Grid.set (g : Grid) (i j : ℕ) (v : ℝ) : Grid :=
  fun y x => if y = i ∧ x = j then v else g y x

/-! ### find_path.rs: numeric helpers -/

/-- distance from find_path.rs: Euclidean distance between two pixels at
10 m spacing.  Pixels are (x, y) = (col, row) pairs, as in the source. -/
noncomputable def distance (a b : ℕ × ℕ) : ℝ :=
  let dx : ℝ := (((b.1 : ℤ) - (a.1 : ℤ)).natAbs : ℝ) * 10.0
  let dy : ℝ := (((b.2 : ℤ) - (a.2 : ℤ)).natAbs : ℝ) * 10.0
  Real.sqrt ((dx * dx) + (dy * dy))

/-- Rust f64::clamp(lo, hi): lo if below, hi if above, identity otherwise. -/
noncomputable def rustClamp (x lo hi : ℝ) : ℝ :=
  if x < lo then lo else if x > hi then hi else x

/-- linear_multiplier from find_path.rs: (20·x).clamp(1, 20). -/
noncomputable def linear_multiplier (x : ℝ) : ℝ :=
  rustClamp (20.0 * x) 1.0 20.0

/-- Rust `as i32` on an f64: truncation toward zero, saturating at the i32
bounds (NaN, which maps to 0 in Rust, has no counterpart in the real model). -/
noncomputable def f64AsI32 (x : ℝ) : ℤ :=
  max (-(2 ^ 31)) (min ((2 ^ 31) - 1) (if 0 ≤ x then ⌊x⌋ else -⌊-x⌋))

/-- cost_fn from find_path.rs: (distance · linear_multiplier gradient) as i32. -/
noncomputable def cost_fn (distance gradient : ℝ) : ℤ :=
  f64AsI32 (distance * linear_multiplier gradient)

/-- The fixed neighbor iteration order (dx, dy) of the successors closure in
find_path_rs. -/
def DIRECTIONS : List (ℤ × ℤ) :=
  [(0, 1), (1, 0), (0, -1), (-1, 0), (1, 1), (1, -1), (-1, -1), (-1, 1)]

/-- Options of find_path_rs that affect successor generation. -/
structure PathOptions where
  max_gradient : ℝ
  excluded_aspects : List Aspect
  aspect_gradient_threshold : ℝ

/-- The condition under which the successors closure of find_path_rs executes
`break 'neighbors` for the neighbor reached by offset (dx, dy) from (x, y):
the neighbor is in bounds, its gradient exceeds the threshold, and its
azimuth lies in some excluded aspect with tolerance 2.5. -/
def aspectBlocked (azimuths gradients : Grid) (width height : ℕ)
    (opts : PathOptions) (x y : ℕ) (d : ℤ × ℤ) : Prop :=
  let nx := usizeWrap ((x : ℤ) + d.1)
  let ny := usizeWrap ((y : ℤ) + d.2)
  nx < width ∧ ny < height ∧ gradients ny nx > opts.aspect_gradient_threshold ∧
    ∃ a ∈ opts.excluded_aspects, a.contains_azimuth (azimuths ny nx) (some 2.5)

open Classical in
/-- The body of the labelled `'neighbors` loop of the successors closure in
find_path_rs, recursing over the remaining direction offsets.  An
aspect-blocked neighbor aborts the whole loop (`break 'neighbors`), returning
only the neighbors accumulated so far; a neighbor whose step gradient reaches
max_gradient is skipped individually. -/
noncomputable def successorsAux (elevations azimuths gradients : Grid)
    (width height : ℕ) (opts : PathOptions) (x y : ℕ) :
    List (ℤ × ℤ) → List ((ℕ × ℕ) × ℤ)
  | [] => []
  | d :: rest =>
    let nx := usizeWrap ((x : ℤ) + d.1)
    let ny := usizeWrap ((y : ℤ) + d.2)
    if nx < width ∧ ny < height then
      if gradients ny nx > opts.aspect_gradient_threshold ∧
          ∃ a ∈ opts.excluded_aspects, a.contains_azimuth (azimuths ny nx) (some 2.5) then
        []
      else
        let dist : ℝ := distance (x, y) (nx, ny)
        let dz : ℝ := elevations ny nx - elevations y x
        let gradient : ℝ := dz / dist
        if gradient < opts.max_gradient then
          ((nx, ny), cost_fn dist gradient)
            :: successorsAux elevations azimuths gradients width height opts x y rest
        else
          successorsAux elevations azimuths gradients width height opts x y rest
    else
      successorsAux elevations azimuths gradients width height opts x y rest

/-- The successors closure of find_path_rs at node (x, y). -/
noncomputable def successors (elevations azimuths gradients : Grid)
    (width height : ℕ) (opts : PathOptions) (p : ℕ × ℕ) : List ((ℕ × ℕ) × ℤ) :=
  successorsAux elevations azimuths gradients width height opts p.1 p.2 DIRECTIONS

/-- Modelled from the spec: the fringe search of the external pathfinding
crate (spec section 4.4.1), which is not part of this repository.  The model
is a fuel-bounded best-first style search over candidate paths, kept in
reverse (head = current node); the only property of fringe the verification
relies on is that a returned path starts at the start node and each
consecutive node is produced, with its cost, by the successors function of
the previous one, which holds of fringe and of this model alike. -/
def searchAux (succ : ℕ × ℕ → List ((ℕ × ℕ) × ℤ)) (isEnd : ℕ × ℕ → Bool) :
    ℕ → List (List (ℕ × ℕ) × ℤ) → Option (List (ℕ × ℕ) × ℤ)
  | 0, _ => none
  | _ + 1, [] => none
  | fuel + 1, (p, c) :: rest =>
    match p with
    | [] => searchAux succ isEnd fuel rest
    | cur :: _ =>
      if isEnd cur then some (p.reverse, c)
      else
        searchAux succ isEnd fuel
          (rest ++ (succ cur).map (fun nc => (nc.1 :: p, c + nc.2)))

/-- find_path_rs from find_path.rs, reduced to the core search.  GeoTIFF
decoding and geographic coordinate conversion are external collaborators;
per spec section 6 an endpoint outside the raster surfaces an error, so the
model takes pixel endpoints and rejects out-of-bounds ones (Modelled from
the spec: coord_to_pixel of the external georaster crate).  The fringe call
is the spec-modelled fuel-bounded search above. -/
noncomputable def find_path_rs (elevations azimuths gradients : Grid)
    (width height : ℕ) (opts : PathOptions) (start stop : ℕ × ℕ) (fuel : ℕ) :
    Option (List (ℕ × ℕ) × ℤ) :=
  if start.1 < width ∧ start.2 < height ∧ stop.1 < width ∧ stop.2 < height then
    searchAux (successors elevations azimuths gradients width height opts)
      (fun p => p = stop) fuel [([start], 0)]
  else none

/-! ### azimuth.rs: Sobel analyzer -/

/-- f64::atan2 on reals: atan2 y x is the argument of the complex number
x + y·i, in (-π, π]. -/
noncomputable def atan2 (y x : ℝ) : ℝ := Complex.arg (Complex.ofReal x + Complex.ofReal y * Complex.I)

/-- calculate_azimuth from azimuth.rs: -1 for flat cells, otherwise
atan2(-gx, gy) in degrees normalized into [0, 360). -/
noncomputable def calculate_azimuth (gx gy : ℝ) : ℝ :=
  if gx = 0.0 ∧ gy = 0.0 then -1.0
  else
    let azimuth_radians : ℝ := atan2 (-gx) gy
    let azimuth_degrees : ℝ := azimuth_radians * 180.0 / Real.pi
    if azimuth_degrees < 0.0 then azimuth_degrees + 360.0 else azimuth_degrees

/-- compute_gradient_along_azimuth from azimuth.rs. -/
noncomputable def compute_gradient_along_azimuth (gx gy azimuth : ℝ) : ℝ :=
  if azimuth = -1.0 then 0.0
  else
    let gx_normalized : ℝ := gx / |(68.0 : ℝ) * 10.0|
    let gy_normalized : ℝ := gy / |(68.0 : ℝ) * 10.0|
    Real.sqrt ((gx_normalized * gx_normalized) + (gy_normalized * gy_normalized))

/-- The 5x5 horizontal Sobel kernel gx_kernel of azimuth.rs. -/
def gx_kernel : List (List ℝ) :=
  [[-5.0, -4.0, 0.0, 4.0, 5.0],
   [-8.0, -10.0, 0.0, 10.0, 8.0],
   [-10.0, -20.0, 0.0, 20.0, 10.0],
   [-8.0, -10.0, 0.0, 10.0, 8.0],
   [-5.0, -4.0, 0.0, 4.0, 5.0]]

/-- The 5x5 vertical Sobel kernel gy_kernel of azimuth.rs. -/
def gy_kernel : List (List ℝ) :=
  [[-5.0, -8.0, -10.0, -8.0, -5.0],
   [-4.0, -10.0, -20.0, -10.0, -4.0],
   [0.0, 0.0, 0.0, 0.0, 0.0],
   [4.0, 10.0, 20.0, 10.0, 4.0],
   [5.0, 8.0, 10.0, 8.0, 5.0]]

/-- Kernel lookup kernel[ki][kj]. -/
def kernelAt (k : List (List ℝ)) (ki kj : ℕ) : ℝ := (k.getD ki []).getD kj 0

/-- The convolution response at interior cell (i, j) for a 5x5 kernel:
the accumulation loop over ki, kj in 0..5 reading elevations[i+ki-2][j+kj-2]
(i, j ≥ 2, so the index arithmetic never underflows). -/
noncomputable def convolve (elevations : Grid) (k : List (List ℝ)) (i j : ℕ) : ℝ :=
  ∑ ki ∈ Finset.range 5, ∑ kj ∈ Finset.range 5,
    elevations (i + ki - 2) (j + kj - 2) * kernelAt k ki kj

/-- The azimuth raster produced by the convolution loop of
compute_azimuths_from_array: computed on the interior 2 ≤ i < height-2,
2 ≤ j < width-2, and left at its initial 0 elsewhere. -/
noncomputable def azimuthGrid (elevations : Grid) (height width : ℕ) : Grid :=
  fun i j =>
    if 2 ≤ i ∧ i < height - 2 ∧ 2 ≤ j ∧ j < width - 2 then
      calculate_azimuth (convolve elevations gx_kernel i j) (convolve elevations gy_kernel i j)
    else 0.0

/-- The gradient raster produced by the convolution loop of
compute_azimuths_from_array. -/
noncomputable def gradientGrid (elevations : Grid) (height width : ℕ) : Grid :=
  fun i j =>
    if 2 ≤ i ∧ i < height - 2 ∧ 2 ≤ j ∧ j < width - 2 then
      compute_gradient_along_azimuth (convolve elevations gx_kernel i j)
        (convolve elevations gy_kernel i j)
        (calculate_azimuth (convolve elevations gx_kernel i j) (convolve elevations gy_kernel i j))
    else 0.0

/-! ### azimuth.rs: D8 flow directions -/

/-- D8_OFFSETS from azimuth.rs: (dy, dx) for directions 0-7 in the order
N, NE, E, SE, S, SW, W, NW. -/
def D8_OFFSETS : List (ℤ × ℤ) :=
  [(-1, 0), (-1, 1), (0, 1), (1, 1), (1, 0), (1, -1), (0, -1), (-1, -1)]

/-- D8_WEIGHTS from azimuth.rs: 1 for cardinal, 1.414 for diagonal moves. -/
def D8_WEIGHTS : List ℝ := [1.0, 1.414, 1.0, 1.414, 1.0, 1.414, 1.0, 1.414]

/-- One iteration of the inner direction loop of compute_d8_flow_directions:
consider direction dir from cell (i, j) and update the running
(steepest_slope, steepest_dir) pair, replacing it only on a strictly greater
slope. -/
noncomputable def d8Step (elevations : Grid) (i j : ℕ) (sd : ℝ × ℕ) (dir : ℕ) : ℝ × ℕ :=
  let off := D8_OFFSETS.getD dir (0, 0)
  let ny := usizeWrap ((i : ℤ) + off.1)
  let nx := usizeWrap ((j : ℤ) + off.2)
  let drop := elevations i j - elevations ny nx
  if drop > 0.0 then
    let slope := drop / D8_WEIGHTS.getD dir 1
    if slope > sd.1 then (slope, dir) else sd
  else sd

/-- The inner direction loop of compute_d8_flow_directions at cell (i, j):
fold over directions 0..8 starting from (0, 255). -/
noncomputable def d8Best (elevations : Grid) (i j : ℕ) : ℝ × ℕ :=
  (List.range 8).foldl (d8Step elevations i j) (0.0, 255)

/-- The elevation drop from cell (i, j) to its D8 neighbor in direction dir. -/
noncomputable def d8Drop (elevations : Grid) (i j dir : ℕ) : ℝ :=
  elevations i j -
    elevations (usizeWrap ((i : ℤ) + (D8_OFFSETS.getD dir (0, 0)).1))
      (usizeWrap ((j : ℤ) + (D8_OFFSETS.getD dir (0, 0)).2))

/-- The distance-weighted slope from cell (i, j) toward direction dir. -/
noncomputable def d8Slope (elevations : Grid) (i j dir : ℕ) : ℝ :=
  d8Drop elevations i j dir / D8_WEIGHTS.getD dir 1

/-- compute_d8_flow_directions from azimuth.rs: direction of the steepest
strictly-downhill neighbor (0..=7) at interior cells, 255 at boundary cells
and sinks. -/
noncomputable def compute_d8_flow_directions (elevations : Grid) (height width : ℕ) :
    ℕ → ℕ → ℕ :=
  fun i j =>
    if 1 ≤ i ∧ i < height - 1 ∧ 1 ≤ j ∧ j < width - 1 then (d8Best elevations i j).2
    else 255

/-! ### azimuth.rs: runout zones -/

/-- START_ZONE_THRESHOLD from compute_runout_zones: tan(10 degrees). -/
noncomputable def START_ZONE_THRESHOLD : ℝ := 0.176

/-- The source-zone predicate of compute_runout_zones: gradient at least the
start-zone threshold and azimuth within some excluded aspect at tolerance
22.5 (the is_excluded aspect loop). -/
def isSourceZone (azimuths gradients : Grid) (excluded : List Aspect) (i j : ℕ) : Prop :=
  gradients i j ≥ START_ZONE_THRESHOLD ∧
    ∃ a ∈ excluded, a.contains_azimuth (azimuths i j) (some 22.5)

/-- The cells visited by a double loop `for i in 1..(height-1) { for j in
1..(width-1) }`, in iteration order. -/
def interiorCells (height width : ℕ) : List (ℕ × ℕ) :=
  (List.range' 1 (height - 1 - 1)).flatMap
    (fun i => (List.range' 1 (width - 1 - 1)).map (fun j => (i, j)))

open Classical in
/-- The downslope propagation loop of compute_runout_zones, from current cell
(cy, cx) with the given step counter and intensity.  The loop always
terminates within 50 steps (theorem runoutWalk_fuel_irrelevant below); it is
written with a fuel parameter, instantiated at 51 by its caller, which that
theorem proves sufficient. -/
noncomputable def runoutWalk (flowDir : ℕ → ℕ → ℕ) (azimuths gradients : Grid)
    (excluded : List Aspect) (height width : ℕ) :
    ℕ → ℕ → ℕ → ℕ → ℝ → Grid → Grid
  | 0, _, _, _, _, runout => runout
  | fuel + 1, cy, cx, runout_cells, intensity, runout =>
    let dir := flowDir cy cx
    if dir = 255 then runout
    else
      let off := D8_OFFSETS.getD dir (0, 0)
      let next_y := usizeWrap ((cy : ℤ) + off.1)
      let next_x := usizeWrap ((cx : ℤ) + off.2)
      if next_y = 0 ∨ next_y ≥ height - 1 ∨ next_x = 0 ∨ next_x ≥ width - 1 then runout
      else
        let cells := runout_cells + 1
        let intensity2 := intensity * 0.92
        let runout2 :=
          if isSourceZone azimuths gradients excluded next_y next_x then runout
          else runout.set next_y next_x (max (runout next_y next_x) intensity2)
        if cells ≥ 50 then runout2
        else if intensity2 < 0.05 then runout2
        else runoutWalk flowDir azimuths gradients excluded height width
               fuel next_y next_x cells intensity2 runout2

open Classical in
/-- The body of the source-scanning loop of compute_runout_zones for one cell
(i, j): skip non-steep and non-excluded cells; blend the source cell itself
when its gradient is near the threshold; then walk the D8 flow. -/
noncomputable def runoutSourceStep (flowDir : ℕ → ℕ → ℕ) (azimuths gradients : Grid)
    (excluded : List Aspect) (height width : ℕ) (runout : Grid) (ij : ℕ × ℕ) : Grid :=
  let i := ij.1
  let j := ij.2
  if gradients i j < START_ZONE_THRESHOLD then runout
  else if ¬ ∃ a ∈ excluded, a.contains_azimuth (azimuths i j) (some 22.5) then runout
  else
    let blend_range : ℝ := 0.35 - START_ZONE_THRESHOLD
    let gradient_above_threshold : ℝ := gradients i j - START_ZONE_THRESHOLD
    let runout1 :=
      if gradient_above_threshold < blend_range then
        let blend_factor : ℝ := 1.0 - (gradient_above_threshold / blend_range)
        let edge_intensity : ℝ := blend_factor * 0.5
        runout.set i j (max (runout i j) edge_intensity)
      else runout
    runoutWalk flowDir azimuths gradients excluded height width 51 i j 0 1.0 runout1

open Classical in
/-- The inner body of the lateral spreading pass: spread the frozen value
v = runout[i][j] into one 4-neighbor of (i, j), unless that neighbor is out
of the interior or itself a source zone. -/
noncomputable def spreadNeighborStep (azimuths gradients : Grid) (excluded : List Aspect)
    (height width : ℕ) (v : ℝ) (spread_runout : Grid) (n : ℕ × ℕ) : Grid :=
  if n.1 > 0 ∧ n.1 < height - 1 ∧ n.2 > 0 ∧ n.2 < width - 1 then
    if isSourceZone azimuths gradients excluded n.1 n.2 then spread_runout
    else spread_runout.set n.1 n.2 (max (spread_runout n.1 n.2) (v * 0.7))
  else spread_runout

open Classical in
/-- One interior cell of one lateral spreading iteration: if the frozen grid
is positive at (i, j), spread to the four 4-neighbors in source order. -/
noncomputable def spreadCellStep (azimuths gradients : Grid) (excluded : List Aspect)
    (height width : ℕ) (runout : Grid) (spread_runout : Grid) (ij : ℕ × ℕ) : Grid :=
  let i := ij.1
  let j := ij.2
  if runout i j > 0.0 then
    [(i - 1, j), (i + 1, j), (i, j - 1), (i, j + 1)].foldl
      (spreadNeighborStep azimuths gradients excluded height width (runout i j))
      spread_runout
  else spread_runout

/-- One iteration of the lateral spreading pass: reads the frozen snapshot
runout and accumulates into a copy of it. -/
noncomputable def spreadOnce (azimuths gradients : Grid) (excluded : List Aspect)
    (height width : ℕ) (runout : Grid) : Grid :=
  (interiorCells height width).foldl
    (spreadCellStep azimuths gradients excluded height width runout) runout

open Classical in
/-- compute_runout_zones from azimuth.rs: zero when no aspects are excluded;
otherwise D8 flow routing from every source cell followed by two lateral
spreading iterations. -/
noncomputable def compute_runout_zones (elevations azimuths gradients : Grid)
    (height width : ℕ) (excluded : List Aspect) : Grid :=
  if excluded = [] then fun _ _ => 0.0
  else
    let flowDir := compute_d8_flow_directions elevations height width
    let runout :=
      (interiorCells height width).foldl
        (runoutSourceStep flowDir azimuths gradients excluded height width)
        (fun _ _ => 0.0)
    spreadOnce azimuths gradients excluded height width
      (spreadOnce azimuths gradients excluded height width runout)

/-! ### azimuth.rs: compute_azimuths_from_array -/

/-- Result structure of compute_azimuths_from_array (AzimuthArrayResult),
with the four rasters flattened row-major to f32 vectors. -/
structure AzimuthArrayResult where
  elevations : List ℝ
  azimuths : List ℝ
  gradients : List ℝ
  runout_zones : List ℝ
  width : ℕ
  height : ℕ

/-- Checked usize subtraction: Rust debug-build subtraction panics on
underflow; the model surfaces that as none. -/
def checkedSub (a b : ℕ) : Option ℕ := if b ≤ a then some (a - b) else none

/-- Row-major flattening of a grid, as in the `into_iter().flatten()` calls. -/
noncomputable def flattenGrid (g : Grid) (height width : ℕ) : List ℝ :=
  (List.range height).flatMap (fun i => (List.range width).map (fun j => g i j))

/-- compute_azimuths_from_array from azimuth.rs.  The error cases are the
explicit size validation and the two usize subtractions `height - 2` and
`width - 2` in the convolution loop headers, which panic on underflow in a
debug build; `width - 2` is only evaluated when the outer row loop body runs,
i.e. when 2 < height - 2.  All remaining index arithmetic stays within
bounds for the guarded ranges, so no other panic source exists. -/
noncomputable def compute_azimuths_from_array (elevations_flat : List ℝ)
    (width height : ℕ) (excluded : List Aspect) : Except String AzimuthArrayResult :=
  if elevations_flat.length ≠ width * height then
    Except.error "Elevation array size does not match dimensions"
  else
    let elevations : Grid := fun row col => elevations_flat.getD (row * width + col) 0.0
    match checkedSub height 2 with
    | none => Except.error "attempt to subtract with overflow"
    | some h2 =>
      if 2 < h2 ∧ checkedSub width 2 = none then
        Except.error "attempt to subtract with overflow"
      else
        let azimuths := azimuthGrid elevations height width
        let gradients := gradientGrid elevations height width
        let runout := compute_runout_zones elevations azimuths gradients height width excluded
        Except.ok
          { elevations := flattenGrid elevations height width
            azimuths := flattenGrid azimuths height width
            gradients := flattenGrid gradients height width
            runout_zones := flattenGrid runout height width
            width := width
            height := height }

/-! ### Predicates used by the claim statements -/

/-- Two pixels are 8-neighbors: distinct and within one step in each axis. -/
def isNeighbor8 (p q : ℕ × ℕ) : Prop :=
  p ≠ q ∧ ((q.1 : ℤ) - (p.1 : ℤ)).natAbs ≤ 1 ∧ ((q.2 : ℤ) - (p.2 : ℤ)).natAbs ≤ 1

/-- A reversed search path (head = most recent node) that starts at start and
whose every extension is produced by the successors function. -/
inductive Chained (succ : ℕ × ℕ → List ((ℕ × ℕ) × ℤ)) (start : ℕ × ℕ) :
    List (ℕ × ℕ) → Prop where
  | base : Chained succ start [start]
  | step {n : ℕ × ℕ} {c : ℤ} {cur : ℕ × ℕ} {p : List (ℕ × ℕ)} :
      Chained succ start (cur :: p) → (n, c) ∈ succ cur →
      Chained succ start (n :: cur :: p)

/-- One move along the D8 flow graph from cell (i, j) (row, col order). -/
def flowStep (flowDir : ℕ → ℕ → ℕ) (p : ℕ × ℕ) : ℕ × ℕ :=
  let off := D8_OFFSETS.getD (flowDir p.1 p.2) (0, 0)
  (usizeWrap ((p.1 : ℤ) + off.1), usizeWrap ((p.2 : ℤ) + off.2))

/-- Reachability through the D8 flow graph in at most n steps, each step
taken from a cell whose flow direction is not the 255 sink sentinel. -/
def FlowReachWithin (flowDir : ℕ → ℕ → ℕ) : ℕ → ℕ × ℕ → ℕ × ℕ → Prop
  | 0, p, q => q = p
  | n + 1, p, q =>
      q = p ∨ (flowDir p.1 p.2 ≠ 255 ∧ FlowReachWithin flowDir n (flowStep flowDir p) q)

/-- Manhattan distance between two cells. -/
def manhattanDist (p q : ℕ × ℕ) : ℕ :=
  ((q.1 : ℤ) - (p.1 : ℤ)).natAbs + ((q.2 : ℤ) - (p.2 : ℤ)).natAbs

/-- Every positive cell of a runout grid is D8-reachable within 50 steps
from some source zone cell. -/
def ReachProp (flowDir : ℕ → ℕ → ℕ) (azimuths gradients : Grid)
    (excluded : List Aspect) (R : Grid) : Prop :=
  ∀ a b, R a b > 0 → ∃ s : ℕ × ℕ, isSourceZone azimuths gradients excluded s.1 s.2 ∧
    FlowReachWithin flowDir 50 s (a, b)

/-- Every positive cell of a runout grid is within Manhattan distance k of a
cell that is D8-reachable within 50 steps from some source zone cell. -/
def NearProp (flowDir : ℕ → ℕ → ℕ) (azimuths gradients : Grid)
    (excluded : List Aspect) (k : ℕ) (R : Grid) : Prop :=
  ∀ a b, R a b > 0 → ∃ s q : ℕ × ℕ, isSourceZone azimuths gradients excluded s.1 s.2 ∧
    FlowReachWithin flowDir 50 s q ∧ manhattanDist q (a, b) ≤ k

/-- Accumulator invariant of one lateral spreading iteration over the frozen
snapshot R: every positive cell of the accumulator was already positive in
R or lies at Manhattan distance exactly 1 from a positive cell of R. -/
def SpreadInv (R R2 : Grid) : Prop :=
  ∀ a b, R2 a b > 0 → R a b > 0 ∨ ∃ p : ℕ × ℕ, R p.1 p.2 > 0 ∧ manhattanDist p (a, b) = 1

/-- The per-edge feasibility guarantee of the path finder for a move from
pixel p to pixel q (both in (x, y) = (col, row) order): q is an 8-neighbor
of p, the step slope is strictly below max_gradient, and when the gradient
at q exceeds the threshold its azimuth lies in no excluded aspect at
tolerance 2.5. -/
def stepOk (elevations azimuths gradients : Grid) (opts : PathOptions)
    (p q : ℕ × ℕ) : Prop :=
  isNeighbor8 p q ∧
    (elevations q.2 q.1 - elevations p.2 p.1) / distance p q < opts.max_gradient ∧
    (gradients q.2 q.1 > opts.aspect_gradient_threshold →
      ∀ a ∈ opts.excluded_aspects, ¬ a.contains_azimuth (azimuths q.2 q.1) (some 2.5))

/-- Demonstration elevation raster: a 1000 m spike at row 2, column 1. -/
def demoElev : Grid := fun i j => if i = 2 ∧ j = 1 then 1000 else 0

/-- Demonstration azimuth raster: all cells face due north. -/
def demoAzim : Grid := fun _ _ => 0

/-- Demonstration gradient raster: steep only at row 1, column 2. -/
def demoGrad : Grid := fun i j => if i = 1 ∧ j = 2 then 1 else 0

/-- Demonstration options: max_gradient 1, North excluded, threshold 0. -/
def demoOpts : PathOptions := ⟨1, [Aspect.North], 0⟩

/-- Demonstration gradient raster for the runout computation: steep only at
the single interior cell (1, 1) of a 3x3 grid. -/
def demoSteep : Grid := fun i j => if i = 1 ∧ j = 1 then 0.2 else 0

/-! ## Theorems -/

/-- C4, counterexample: contrary to the claim, the lower end of the first arm
of North does not stay at 0: the source widens it to 0 - tolerance, so the
flat sentinel bearing -1 is contained in North at tolerance 2.5 even though
-1 lies in neither [0, 22.5 + 2.5] nor [337.5 - 2.5, 360]. -/
theorem north_contains_neg_one_at_pathfinder_tolerance :
    Aspect.North.contains_azimuth (-1.0) (some 2.5) ∧
      ¬ ((((0 : ℝ) ≤ -1.0) ∧ ((-1.0 : ℝ) ≤ 22.5 + 2.5)) ∨
        (((337.5 : ℝ) - 2.5 ≤ -1.0) ∧ ((-1.0 : ℝ) ≤ 360))) := by
  refine ⟨Or.inl ⟨by norm_num, by norm_num⟩, ?_⟩
  rintro (⟨h, -⟩ | ⟨h, -⟩) <;> norm_num at h

/-- C4, amended: for every bearing a and tolerance t ≥ 0,
North.contains_azimuth(a, Some(t)) holds exactly when a lies in
[0 - t, 22.5 + t] ∪ [337.5 - t, 360]: tolerance also lowers the first arm
below 0, so bearings below 0 (including the flat sentinel -1 once t ≥ 1)
are contained in North. -/
theorem north_contains_iff_widened_arms (a t : ℝ) (_ht : 0 ≤ t) :
    Aspect.North.contains_azimuth a (some t) ↔
      a ∈ Set.Icc (0 - t) (22.5 + t) ∪ Set.Icc (337.5 - t) 360 := by
  simp only [Aspect.contains_azimuth, Option.getD_some, Set.mem_union, Set.mem_Icc]
  norm_num

/-- Witness for north_contains_iff_widened_arms at a = 0, t = 2.5. -/
theorem north_contains_iff_widened_arms_witness :
    (0 : ℝ) ≤ 2.5 ∧
      (Aspect.North.contains_azimuth 0 (some 2.5) ↔
        (0 : ℝ) ∈ Set.Icc (0 - 2.5) (22.5 + 2.5) ∪ Set.Icc (337.5 - 2.5) 360) :=
  ⟨by norm_num, north_contains_iff_widened_arms 0 2.5 (by norm_num)⟩

/-- Helper: the clamp in linear_multiplier stays within [lo, hi] when
lo ≤ hi. -/
theorem rustClamp_mem (x lo hi : ℝ) (h : lo ≤ hi) :
    lo ≤ rustClamp x lo hi ∧ rustClamp x lo hi ≤ hi := by
  unfold rustClamp
  split_ifs <;> constructor <;> linarith

/-- Helper: an 8-neighbor step distance lies in [10, 15]. -/
theorem distance_neighbor8_bounds (p q : ℕ × ℕ) (h : isNeighbor8 p q) :
    10 ≤ distance p q ∧ distance p q ≤ 15 := by
  obtain ⟨hne, hx, hy⟩ := h
  have haxy : ¬ (((q.1 : ℤ) - (p.1 : ℤ)).natAbs = 0 ∧ ((q.2 : ℤ) - (p.2 : ℤ)).natAbs = 0) := by
    rintro ⟨h1, h2⟩
    have e1 : p.1 = q.1 := by omega
    have e2 : p.2 = q.2 := by omega
    exact hne (Prod.ext e1 e2)
  have hcase1 : ((q.1 : ℤ) - (p.1 : ℤ)).natAbs = 0 ∨ ((q.1 : ℤ) - (p.1 : ℤ)).natAbs = 1 := by
    omega
  have hcase2 : ((q.2 : ℤ) - (p.2 : ℤ)).natAbs = 0 ∨ ((q.2 : ℤ) - (p.2 : ℤ)).natAbs = 1 := by
    omega
  simp only [distance]
  constructor
  · rw [show (10 : ℝ) = Real.sqrt 100 by
      rw [show (100 : ℝ) = 10 ^ 2 by norm_num, Real.sqrt_sq (by norm_num)]]
    apply Real.sqrt_le_sqrt
    rcases hcase1 with h1 | h1 <;> rcases hcase2 with h2 | h2
    · exact absurd ⟨h1, h2⟩ haxy
    all_goals rw [h1, h2]; norm_num
  · rw [show (15 : ℝ) = Real.sqrt 225 by
      rw [show (225 : ℝ) = 15 ^ 2 by norm_num, Real.sqrt_sq (by norm_num)]]
    apply Real.sqrt_le_sqrt
    rcases hcase1 with h1 | h1 <;> rcases hcase2 with h2 | h2 <;> rw [h1, h2] <;> norm_num

/-- C5: for every move between 8-neighbors, the edge cost handed to the
search equals the floor of d times the multiplier clamp(20·slope, 1, 20),
where d is the 10 m-scaled Euclidean step distance and slope the elevation
difference over d: the i32 cast truncates a value that is non-negative (so
truncation is floor) and below the i32 saturation bound, and it is applied
after the multiplication. -/
theorem cost_fn_eq_floor_of_clamped (elevations : Grid) (x y nx ny : ℕ)
    (h8 : isNeighbor8 (x, y) (nx, ny)) :
    cost_fn (distance (x, y) (nx, ny))
        ((elevations ny nx - elevations y x) / distance (x, y) (nx, ny)) =
      ⌊distance (x, y) (nx, ny) *
        rustClamp (20 * ((elevations ny nx - elevations y x) / distance (x, y) (nx, ny)))
          1 20⌋ := by
  obtain ⟨hd10, hd15⟩ := distance_neighbor8_bounds (x, y) (nx, ny) h8
  set d : ℝ := distance (x, y) (nx, ny) with hd
  set g : ℝ := (elevations ny nx - elevations y x) / d with hg
  obtain ⟨hm1, hm20⟩ := rustClamp_mem (20 * g) 1 20 (by norm_num)
  have hmul_eq : linear_multiplier g = rustClamp (20 * g) 1 20 := by
    unfold linear_multiplier
    norm_num
  have hnonneg : 0 ≤ d * rustClamp (20 * g) 1 20 := by nlinarith
  have hle : d * rustClamp (20 * g) 1 20 ≤ 300 := by nlinarith
  unfold cost_fn f64AsI32
  rw [hmul_eq, if_pos hnonneg]
  have hfloor_lo : (0 : ℤ) ≤ ⌊d * rustClamp (20 * g) 1 20⌋ := Int.le_floor.mpr (by norm_num [hnonneg])
  have hfloor_hi : ⌊d * rustClamp (20 * g) 1 20⌋ ≤ 300 := by
    have := Int.floor_le_floor hle
    simpa using this
  have h1 : min ((2 : ℤ) ^ 31 - 1) ⌊d * rustClamp (20 * g) 1 20⌋ = ⌊d * rustClamp (20 * g) 1 20⌋ :=
    min_eq_right (by omega)
  rw [h1]
  exact max_eq_right (by omega)

/-- Witness for cost_fn_eq_floor_of_clamped on the all-zero raster from
(0, 0) to (1, 0). -/
theorem cost_fn_eq_floor_of_clamped_witness :
    isNeighbor8 (0, 0) (1, 0) ∧
      cost_fn (distance ((0 : ℕ), (0 : ℕ)) ((1 : ℕ), (0 : ℕ)))
          (((fun _ _ => (0 : ℝ)) 0 1 - (fun _ _ => (0 : ℝ)) 0 0) /
            distance ((0 : ℕ), (0 : ℕ)) ((1 : ℕ), (0 : ℕ))) =
        ⌊distance ((0 : ℕ), (0 : ℕ)) ((1 : ℕ), (0 : ℕ)) *
          rustClamp
            (20 * (((fun _ _ => (0 : ℝ)) 0 1 - (fun _ _ => (0 : ℝ)) 0 0) /
              distance ((0 : ℕ), (0 : ℕ)) ((1 : ℕ), (0 : ℕ))))
            1 20⌋ :=
  ⟨by unfold isNeighbor8; decide,
    cost_fn_eq_floor_of_clamped (fun _ _ => 0) 0 0 1 0 (by unfold isNeighbor8; decide)⟩

/-- Helper: an out-of-bounds neighbor is skipped individually. -/
theorem successorsAux_cons_oob (elevations azimuths gradients : Grid)
    (width height : ℕ) (opts : PathOptions) (x y : ℕ) (d : ℤ × ℤ)
    (rest : List (ℤ × ℤ))
    (hout : ¬ (usizeWrap ((x : ℤ) + d.1) < width ∧ usizeWrap ((y : ℤ) + d.2) < height)) :
    successorsAux elevations azimuths gradients width height opts x y (d :: rest) =
      successorsAux elevations azimuths gradients width height opts x y rest := by
  rw [successorsAux, if_neg hout]

/-- Helper: an in-bounds aspect-blocked neighbor aborts the loop. -/
theorem successorsAux_cons_block (elevations azimuths gradients : Grid)
    (width height : ℕ) (opts : PathOptions) (x y : ℕ) (d : ℤ × ℤ)
    (rest : List (ℤ × ℤ))
    (hin : usizeWrap ((x : ℤ) + d.1) < width ∧ usizeWrap ((y : ℤ) + d.2) < height)
    (hb : gradients (usizeWrap ((y : ℤ) + d.2)) (usizeWrap ((x : ℤ) + d.1)) >
            opts.aspect_gradient_threshold ∧
          ∃ a ∈ opts.excluded_aspects,
            a.contains_azimuth
              (azimuths (usizeWrap ((y : ℤ) + d.2)) (usizeWrap ((x : ℤ) + d.1))) (some 2.5)) :
    successorsAux elevations azimuths gradients width height opts x y (d :: rest) = [] := by
  rw [successorsAux, if_pos hin, if_pos hb]

/-- Helper: an in-bounds neighbor that is not aspect-blocked and whose step
gradient reaches max_gradient is skipped individually. -/
theorem successorsAux_cons_steep (elevations azimuths gradients : Grid)
    (width height : ℕ) (opts : PathOptions) (x y : ℕ) (d : ℤ × ℤ)
    (rest : List (ℤ × ℤ))
    (hin : usizeWrap ((x : ℤ) + d.1) < width ∧ usizeWrap ((y : ℤ) + d.2) < height)
    (hnb : ¬ (gradients (usizeWrap ((y : ℤ) + d.2)) (usizeWrap ((x : ℤ) + d.1)) >
            opts.aspect_gradient_threshold ∧
          ∃ a ∈ opts.excluded_aspects,
            a.contains_azimuth
              (azimuths (usizeWrap ((y : ℤ) + d.2)) (usizeWrap ((x : ℤ) + d.1))) (some 2.5)))
    (hs : ¬ ((elevations (usizeWrap ((y : ℤ) + d.2)) (usizeWrap ((x : ℤ) + d.1)) -
            elevations y x) /
          distance (x, y) (usizeWrap ((x : ℤ) + d.1), usizeWrap ((y : ℤ) + d.2)) <
        opts.max_gradient)) :
    successorsAux elevations azimuths gradients width height opts x y (d :: rest) =
      successorsAux elevations azimuths gradients width height opts x y rest := by
  rw [successorsAux, if_pos hin, if_neg hnb, if_neg hs]

/-- Helper: an in-bounds feasible neighbor is emitted and the loop continues. -/
theorem successorsAux_cons_ok (elevations azimuths gradients : Grid)
    (width height : ℕ) (opts : PathOptions) (x y : ℕ) (d : ℤ × ℤ)
    (rest : List (ℤ × ℤ))
    (hin : usizeWrap ((x : ℤ) + d.1) < width ∧ usizeWrap ((y : ℤ) + d.2) < height)
    (hnb : ¬ (gradients (usizeWrap ((y : ℤ) + d.2)) (usizeWrap ((x : ℤ) + d.1)) >
            opts.aspect_gradient_threshold ∧
          ∃ a ∈ opts.excluded_aspects,
            a.contains_azimuth
              (azimuths (usizeWrap ((y : ℤ) + d.2)) (usizeWrap ((x : ℤ) + d.1))) (some 2.5)))
    (hs : (elevations (usizeWrap ((y : ℤ) + d.2)) (usizeWrap ((x : ℤ) + d.1)) -
            elevations y x) /
          distance (x, y) (usizeWrap ((x : ℤ) + d.1), usizeWrap ((y : ℤ) + d.2)) <
        opts.max_gradient) :
    successorsAux elevations azimuths gradients width height opts x y (d :: rest) =
      ((usizeWrap ((x : ℤ) + d.1), usizeWrap ((y : ℤ) + d.2)),
        cost_fn (distance (x, y) (usizeWrap ((x : ℤ) + d.1), usizeWrap ((y : ℤ) + d.2)))
          ((elevations (usizeWrap ((y : ℤ) + d.2)) (usizeWrap ((x : ℤ) + d.1)) -
              elevations y x) /
            distance (x, y) (usizeWrap ((x : ℤ) + d.1), usizeWrap ((y : ℤ) + d.2))))
        :: successorsAux elevations azimuths gradients width height opts x y rest := by
  rw [successorsAux, if_pos hin, if_neg hnb, if_pos hs]

/-- C2: during successor expansion, an aspect-blocked neighbor aborts the
whole neighbor loop — the blocked offset and everything after it in the
iteration order produce nothing, while offsets earlier in the order keep
their contribution — whereas a neighbor whose step gradient reaches
max_gradient is rejected individually, without cutting off later offsets. -/
theorem successors_abort_on_aspect_and_filter_on_slope
    (elevations azimuths gradients : Grid) (width height : ℕ) (opts : PathOptions)
    (x y : ℕ) (l1 l2 l3 l4 : List (ℤ × ℤ)) (d e : ℤ × ℤ)
    (hblock : aspectBlocked azimuths gradients width height opts x y d)
    (hein : usizeWrap ((x : ℤ) + e.1) < width ∧ usizeWrap ((y : ℤ) + e.2) < height)
    (henb : ¬ (gradients (usizeWrap ((y : ℤ) + e.2)) (usizeWrap ((x : ℤ) + e.1)) >
            opts.aspect_gradient_threshold ∧
          ∃ a ∈ opts.excluded_aspects,
            a.contains_azimuth
              (azimuths (usizeWrap ((y : ℤ) + e.2)) (usizeWrap ((x : ℤ) + e.1))) (some 2.5)))
    (hes : ¬ ((elevations (usizeWrap ((y : ℤ) + e.2)) (usizeWrap ((x : ℤ) + e.1)) -
            elevations y x) /
          distance (x, y) (usizeWrap ((x : ℤ) + e.1), usizeWrap ((y : ℤ) + e.2)) <
        opts.max_gradient)) :
    successorsAux elevations azimuths gradients width height opts x y (l1 ++ d :: l2) =
        successorsAux elevations azimuths gradients width height opts x y l1 ∧
      successorsAux elevations azimuths gradients width height opts x y (l3 ++ e :: l4) =
        successorsAux elevations azimuths gradients width height opts x y (l3 ++ l4) := by
  obtain ⟨hdx, hdy, hdb⟩ := hblock
  constructor
  · induction l1 with
    | nil =>
      simpa using successorsAux_cons_block elevations azimuths gradients width height opts
        x y d l2 ⟨hdx, hdy⟩ hdb
    | cons f l1 ih =>
      by_cases hfin : usizeWrap ((x : ℤ) + f.1) < width ∧ usizeWrap ((y : ℤ) + f.2) < height
      · by_cases hfb : gradients (usizeWrap ((y : ℤ) + f.2)) (usizeWrap ((x : ℤ) + f.1)) >
            opts.aspect_gradient_threshold ∧
          ∃ a ∈ opts.excluded_aspects,
            a.contains_azimuth
              (azimuths (usizeWrap ((y : ℤ) + f.2)) (usizeWrap ((x : ℤ) + f.1))) (some 2.5)
        · rw [List.cons_append,
            successorsAux_cons_block elevations azimuths gradients width height opts
              x y f (l1 ++ d :: l2) hfin hfb,
            successorsAux_cons_block elevations azimuths gradients width height opts
              x y f l1 hfin hfb]
        · by_cases hfs : (elevations (usizeWrap ((y : ℤ) + f.2)) (usizeWrap ((x : ℤ) + f.1)) -
              elevations y x) /
            distance (x, y) (usizeWrap ((x : ℤ) + f.1), usizeWrap ((y : ℤ) + f.2)) <
              opts.max_gradient
          · rw [List.cons_append,
              successorsAux_cons_ok elevations azimuths gradients width height opts
                x y f (l1 ++ d :: l2) hfin hfb hfs,
              successorsAux_cons_ok elevations azimuths gradients width height opts
                x y f l1 hfin hfb hfs, ih]
          · rw [List.cons_append,
              successorsAux_cons_steep elevations azimuths gradients width height opts
                x y f (l1 ++ d :: l2) hfin hfb hfs,
              successorsAux_cons_steep elevations azimuths gradients width height opts
                x y f l1 hfin hfb hfs, ih]
      · rw [List.cons_append,
          successorsAux_cons_oob elevations azimuths gradients width height opts
            x y f (l1 ++ d :: l2) hfin,
          successorsAux_cons_oob elevations azimuths gradients width height opts
            x y f l1 hfin, ih]
  · induction l3 with
    | nil =>
      simpa using successorsAux_cons_steep elevations azimuths gradients width height opts
        x y e l4 hein henb hes
    | cons f l3 ih =>
      by_cases hfin : usizeWrap ((x : ℤ) + f.1) < width ∧ usizeWrap ((y : ℤ) + f.2) < height
      · by_cases hfb : gradients (usizeWrap ((y : ℤ) + f.2)) (usizeWrap ((x : ℤ) + f.1)) >
            opts.aspect_gradient_threshold ∧
          ∃ a ∈ opts.excluded_aspects,
            a.contains_azimuth
              (azimuths (usizeWrap ((y : ℤ) + f.2)) (usizeWrap ((x : ℤ) + f.1))) (some 2.5)
        · rw [List.cons_append, List.cons_append,
            successorsAux_cons_block elevations azimuths gradients width height opts
              x y f (l3 ++ e :: l4) hfin hfb,
            successorsAux_cons_block elevations azimuths gradients width height opts
              x y f (l3 ++ l4) hfin hfb]
        · by_cases hfs : (elevations (usizeWrap ((y : ℤ) + f.2)) (usizeWrap ((x : ℤ) + f.1)) -
              elevations y x) /
            distance (x, y) (usizeWrap ((x : ℤ) + f.1), usizeWrap ((y : ℤ) + f.2)) <
              opts.max_gradient
          · rw [List.cons_append, List.cons_append,
              successorsAux_cons_ok elevations azimuths gradients width height opts
                x y f (l3 ++ e :: l4) hfin hfb hfs,
              successorsAux_cons_ok elevations azimuths gradients width height opts
                x y f (l3 ++ l4) hfin hfb hfs, ih]
          · rw [List.cons_append, List.cons_append,
              successorsAux_cons_steep elevations azimuths gradients width height opts
                x y f (l3 ++ e :: l4) hfin hfb hfs,
              successorsAux_cons_steep elevations azimuths gradients width height opts
                x y f (l3 ++ l4) hfin hfb hfs, ih]
      · rw [List.cons_append, List.cons_append,
          successorsAux_cons_oob elevations azimuths gradients width height opts
            x y f (l3 ++ e :: l4) hfin,
          successorsAux_cons_oob elevations azimuths gradients width height opts
            x y f (l3 ++ l4) hfin, ih]


/-- Witness for successors_abort_on_aspect_and_filter_on_slope: from node
(1, 1) on the demonstration rasters, offset (1, 0) reaches the steep
north-facing cell and aborts the loop, while offset (0, 1) reaches the
1000 m spike and is rejected by slope alone. -/
theorem successors_abort_on_aspect_and_filter_on_slope_witness :
    aspectBlocked demoAzim demoGrad 3 3 demoOpts 1 1 (1, 0) ∧
      (usizeWrap ((1 : ℤ) + 0) < 3 ∧ usizeWrap ((1 : ℤ) + 1) < 3) ∧
      (¬ (demoGrad (usizeWrap ((1 : ℤ) + 1)) (usizeWrap ((1 : ℤ) + 0)) > (0 : ℝ) ∧
        ∃ a ∈ [Aspect.North],
          a.contains_azimuth (demoAzim (usizeWrap ((1 : ℤ) + 1)) (usizeWrap ((1 : ℤ) + 0)))
            (some 2.5))) ∧
      (¬ ((demoElev (usizeWrap ((1 : ℤ) + 1)) (usizeWrap ((1 : ℤ) + 0)) - demoElev 1 1) /
            distance (1, 1) (usizeWrap ((1 : ℤ) + 0), usizeWrap ((1 : ℤ) + 1)) < (1 : ℝ))) ∧
      (successorsAux demoElev demoAzim demoGrad 3 3 demoOpts 1 1 ([] ++ (1, 0) :: []) =
          successorsAux demoElev demoAzim demoGrad 3 3 demoOpts 1 1 [] ∧
        successorsAux demoElev demoAzim demoGrad 3 3 demoOpts 1 1 ([] ++ (0, 1) :: []) =
          successorsAux demoElev demoAzim demoGrad 3 3 demoOpts 1 1 ([] ++ [])) := by
  have hwrap0 : usizeWrap ((1 : ℤ) + 0) = 1 := by decide
  have hwrap1 : usizeWrap ((1 : ℤ) + 1) = 2 := by decide
  have hdist : distance ((1 : ℕ), (1 : ℕ)) ((1 : ℕ), (2 : ℕ)) = 10 := by
    simp only [distance]
    norm_num
    rw [show ((100 : ℝ) = 10 ^ 2) by norm_num, Real.sqrt_sq (by norm_num)]
  have h1 : aspectBlocked demoAzim demoGrad 3 3 demoOpts 1 1 (1, 0) :=
    ⟨by decide, by decide,
      show demoGrad 1 2 > demoOpts.aspect_gradient_threshold by norm_num [demoGrad, demoOpts],
      ⟨Aspect.North, by simp [demoOpts],
        Or.inl ⟨show (0.0 : ℝ) - 2.5 ≤ demoAzim 1 2 by norm_num [demoAzim],
          show demoAzim 1 2 ≤ 22.5 + 2.5 by norm_num [demoAzim]⟩⟩⟩
  have h2 : usizeWrap ((1 : ℤ) + 0) < 3 ∧ usizeWrap ((1 : ℤ) + 1) < 3 := by
    rw [hwrap0, hwrap1]; exact ⟨by norm_num, by norm_num⟩
  have h3 : ¬ (demoGrad (usizeWrap ((1 : ℤ) + 1)) (usizeWrap ((1 : ℤ) + 0)) > (0 : ℝ) ∧
      ∃ a ∈ [Aspect.North],
        a.contains_azimuth (demoAzim (usizeWrap ((1 : ℤ) + 1)) (usizeWrap ((1 : ℤ) + 0)))
          (some 2.5)) := by
    rw [hwrap0, hwrap1]
    rintro ⟨hgt, -⟩
    norm_num [demoGrad] at hgt
  have h4 : ¬ ((demoElev (usizeWrap ((1 : ℤ) + 1)) (usizeWrap ((1 : ℤ) + 0)) - demoElev 1 1) /
      distance (1, 1) (usizeWrap ((1 : ℤ) + 0), usizeWrap ((1 : ℤ) + 1)) < (1 : ℝ)) := by
    rw [hwrap0, hwrap1, hdist]
    norm_num [demoElev]
  have hmain := successors_abort_on_aspect_and_filter_on_slope demoElev demoAzim demoGrad
    3 3 demoOpts 1 1 [] [] [] [] (1, 0) (0, 1) h1 h2 h3 h4
  exact ⟨h1, h2, h3, h4, hmain⟩

set_option maxHeartbeats 2000000 in
/-- C8: for azimuths in [0, 360) away from the bin edges, the zero-tolerance
contains test of a compass sector holds exactly when from_azimuth classifies
the azimuth into that sector; and even at a bin edge the sector that
from_azimuth picks still admits the value under its closed
contains-interval. -/
theorem contains_zero_tolerance_iff_from_azimuth (a : ℝ) (h0 : 0 ≤ a) (h1 : a < 360)
    (s : Aspect) (_hs : s ≠ Aspect.Flat) :
    (a ∉ ([22.5, 67.5, 112.5, 157.5, 202.5, 247.5, 292.5, 337.5] : List ℝ) →
      (s.contains_azimuth a (some 0) ↔ Aspect.from_azimuth a = s)) ∧
    (Aspect.from_azimuth a = s → s.contains_azimuth a (some 0)) := by
  have hne : a ≠ -1.0 := by intro h; rw [h] at h0; norm_num at h0
  constructor
  · intro hedge
    simp only [List.mem_cons, List.not_mem_nil, or_false, not_or] at hedge
    obtain ⟨e1, e2, e3, e4, e5, e6, e7, e8⟩ := hedge
    unfold Aspect.from_azimuth
    rw [if_neg hne]
    split_ifs with p1 p2 p3 p4 p5 p6 p7 p8 <;>
      cases s <;>
        simp only [Aspect.contains_azimuth, Option.getD_some, reduceCtorEq, iff_false,
          iff_true, eq_self_iff_true] <;>
        first
          | (constructor <;> linarith)
          | (left; constructor <;> linarith)
          | (right; constructor <;> linarith)
          | (intro hX <;> linarith)
          | (rintro ⟨hX, hY⟩ <;> linarith)
          | (rintro ⟨hX, hY⟩ <;> rcases Ne.lt_or_lt e1 with q | q <;> linarith)
          | (rintro ⟨hX, hY⟩ <;> rcases Ne.lt_or_lt e2 with q | q <;> linarith)
          | (rintro ⟨hX, hY⟩ <;> rcases Ne.lt_or_lt e3 with q | q <;> linarith)
          | (rintro ⟨hX, hY⟩ <;> rcases Ne.lt_or_lt e4 with q | q <;> linarith)
          | (rintro ⟨hX, hY⟩ <;> rcases Ne.lt_or_lt e5 with q | q <;> linarith)
          | (rintro ⟨hX, hY⟩ <;> rcases Ne.lt_or_lt e6 with q | q <;> linarith)
          | (rintro ⟨hX, hY⟩ <;> rcases Ne.lt_or_lt e7 with q | q <;> linarith)
          | (rintro ⟨hX, hY⟩ <;> rcases Ne.lt_or_lt e8 with q | q <;> linarith)
  · intro hB
    unfold Aspect.from_azimuth at hB
    rw [if_neg hne] at hB
    split_ifs at hB with p1 p2 p3 p4 p5 p6 p7 p8 <;>
      rw [← hB] <;>
        simp only [Aspect.contains_azimuth, Option.getD_some] <;>
        first
          | (constructor <;> linarith)
          | (left; constructor <;> linarith)
          | (right; constructor <;> linarith)

/-- Witness for contains_zero_tolerance_iff_from_azimuth at a = 45,
s = Northeast. -/
theorem contains_zero_tolerance_iff_from_azimuth_witness :
    (0 : ℝ) ≤ 45 ∧ (45 : ℝ) < 360 ∧ Aspect.Northeast ≠ Aspect.Flat ∧
      (((45 : ℝ) ∉ ([22.5, 67.5, 112.5, 157.5, 202.5, 247.5, 292.5, 337.5] : List ℝ) →
        (Aspect.Northeast.contains_azimuth 45 (some 0) ↔
          Aspect.from_azimuth 45 = Aspect.Northeast)) ∧
      (Aspect.from_azimuth 45 = Aspect.Northeast →
        Aspect.Northeast.contains_azimuth 45 (some 0))) :=
  ⟨by norm_num, by norm_num, by simp,
    contains_zero_tolerance_iff_from_azimuth 45 (by norm_num) (by norm_num)
      Aspect.Northeast (by simp)⟩

/-- Helper: on a non-flat cell the normalized azimuth is non-negative. -/
theorem calculate_azimuth_nonneg_of_not_flat (gx gy : ℝ) (h : ¬ (gx = 0.0 ∧ gy = 0.0)) :
    0 ≤ calculate_azimuth gx gy := by
  unfold calculate_azimuth
  rw [if_neg h]
  dsimp only
  have hr : -Real.pi < atan2 (-gx) gy := Complex.neg_pi_lt_arg _
  have hpi : 0 < Real.pi := Real.pi_pos
  have hdeg : -(180 : ℝ) < atan2 (-gx) gy * 180.0 / Real.pi := by
    rw [lt_div_iff hpi]
    nlinarith
  split_ifs with h2 <;> linarith

/-- Helper: calculate_azimuth returns the -1 flat sentinel exactly when both
convolution responses vanish. -/
theorem calculate_azimuth_eq_neg_one_iff (gx gy : ℝ) :
    calculate_azimuth gx gy = -1.0 ↔ (gx = 0.0 ∧ gy = 0.0) := by
  constructor
  · intro h
    by_contra hc
    have hge := calculate_azimuth_nonneg_of_not_flat gx gy hc
    rw [h] at hge
    norm_num at hge
  · intro h
    unfold calculate_azimuth
    rw [if_pos h]

/-- Helper: on a non-flat cell the gradient magnitude is strictly positive. -/
theorem compute_gradient_pos_of_not_flat (gx gy az : ℝ) (h : ¬ (gx = 0.0 ∧ gy = 0.0))
    (haz : ¬ (az = -1.0)) :
    0 < compute_gradient_along_azimuth gx gy az := by
  unfold compute_gradient_along_azimuth
  rw [if_neg haz]
  dsimp only
  apply Real.sqrt_pos.mpr
  have h680 : |(68.0 : ℝ) * 10.0| ≠ 0 := by norm_num
  rcases not_and_or.mp h with hx | hy
  · norm_num at hx
    have hu : gx / |(68.0 : ℝ) * 10.0| ≠ 0 := div_ne_zero hx h680
    have := mul_self_pos.mpr hu
    nlinarith [mul_self_nonneg (gy / |(68.0 : ℝ) * 10.0|)]
  · norm_num at hy
    have hu : gy / |(68.0 : ℝ) * 10.0| ≠ 0 := div_ne_zero hy h680
    have := mul_self_pos.mpr hu
    nlinarith [mul_self_nonneg (gx / |(68.0 : ℝ) * 10.0|)]

/-- C3: at every interior cell of the analyzer output the azimuth raster
holds the -1 flat sentinel exactly when the gradient raster holds 0, and
exactly when both convolution responses gx and gy are zero. -/
theorem azimuth_flat_iff_gradient_zero (elevations : Grid) (height width i j : ℕ)
    (hi : 2 ≤ i) (hi2 : i < height - 2) (hj : 2 ≤ j) (hj2 : j < width - 2) :
    (azimuthGrid elevations height width i j = -1.0 ↔
      gradientGrid elevations height width i j = 0.0) ∧
    (azimuthGrid elevations height width i j = -1.0 ↔
      (convolve elevations gx_kernel i j = 0.0 ∧ convolve elevations gy_kernel i j = 0.0)) := by
  have hcond : 2 ≤ i ∧ i < height - 2 ∧ 2 ≤ j ∧ j < width - 2 := ⟨hi, hi2, hj, hj2⟩
  unfold azimuthGrid gradientGrid
  rw [if_pos hcond, if_pos hcond]
  constructor
  · constructor
    · intro h
      rw [h]
      unfold compute_gradient_along_azimuth
      rw [if_pos rfl]
    · intro h
      by_contra hc
      have hflat : ¬ (convolve elevations gx_kernel i j = 0.0 ∧
          convolve elevations gy_kernel i j = 0.0) := fun hf =>
        hc ((calculate_azimuth_eq_neg_one_iff _ _).mpr hf)
      have hpos := compute_gradient_pos_of_not_flat _ _ _ hflat hc
      rw [h] at hpos
      norm_num at hpos
  · exact calculate_azimuth_eq_neg_one_iff _ _

/-- Witness for azimuth_flat_iff_gradient_zero on the all-zero 5x5 raster at
interior cell (2, 2). -/
theorem azimuth_flat_iff_gradient_zero_witness :
    (2 ≤ 2 ∧ 2 < 5 - 2 ∧ 2 ≤ 2 ∧ 2 < 5 - 2) ∧
      ((azimuthGrid (fun _ _ => 0) 5 5 2 2 = -1.0 ↔
        gradientGrid (fun _ _ => 0) 5 5 2 2 = 0.0) ∧
      (azimuthGrid (fun _ _ => 0) 5 5 2 2 = -1.0 ↔
        (convolve (fun _ _ => 0) gx_kernel 2 2 = 0.0 ∧
          convolve (fun _ _ => 0) gy_kernel 2 2 = 0.0))) :=
  ⟨by norm_num,
    azimuth_flat_iff_gradient_zero (fun _ _ => 0) 5 5 2 2 (by norm_num) (by norm_num)
      (by norm_num) (by norm_num)⟩

/-- Helper: the f64 literal 0.0 is the real number 0. -/
theorem floatZero : (0.0 : ℝ) = 0 := by norm_num

/-- Helper: every D8 distance weight is positive. -/
theorem D8_WEIGHTS_getD_pos (d : ℕ) : 0 < D8_WEIGHTS.getD d 1 := by
  rcases d with _ | _ | _ | _ | _ | _ | _ | _ | d <;>
    simp [D8_WEIGHTS, List.getD] <;> norm_num

/-- Helper: a positive drop gives a positive weighted slope. -/
theorem d8Slope_pos (elevations : Grid) (i j d : ℕ) (h : d8Drop elevations i j d > 0) :
    0 < d8Slope elevations i j d :=
  div_pos h (D8_WEIGHTS_getD_pos d)

/-- Helper: the loop step written through d8Drop and d8Slope. -/
theorem d8Step_eq (elevations : Grid) (i j : ℕ) (sd : ℝ × ℕ) (dir : ℕ) :
    d8Step elevations i j sd dir =
      if d8Drop elevations i j dir > 0.0 then
        if d8Slope elevations i j dir > sd.1 then (d8Slope elevations i j dir, dir) else sd
      else sd := rfl

/-- Helper: invariant of the direction fold: either nothing dropped yet and
the state is the initial (0, 255), or the state records the first direction
among those processed attaining the maximal positive weighted slope. -/
theorem d8_fold_invariant (elevations : Grid) (i j : ℕ) (n : ℕ) :
    ((List.range n).foldl (d8Step elevations i j) (0.0, 255) = (0.0, 255) ∧
      ∀ d < n, ¬ (d8Drop elevations i j d > 0)) ∨
    (((List.range n).foldl (d8Step elevations i j) (0.0, 255)).2 < n ∧
      d8Drop elevations i j ((List.range n).foldl (d8Step elevations i j) (0.0, 255)).2 > 0 ∧
      ((List.range n).foldl (d8Step elevations i j) (0.0, 255)).1 =
        d8Slope elevations i j ((List.range n).foldl (d8Step elevations i j) (0.0, 255)).2 ∧
      0 < ((List.range n).foldl (d8Step elevations i j) (0.0, 255)).1 ∧
      (∀ d < n, d8Drop elevations i j d > 0 →
        d8Slope elevations i j d ≤ ((List.range n).foldl (d8Step elevations i j) (0.0, 255)).1) ∧
      (∀ d < ((List.range n).foldl (d8Step elevations i j) (0.0, 255)).2,
        d8Drop elevations i j d > 0 →
        d8Slope elevations i j d <
          ((List.range n).foldl (d8Step elevations i j) (0.0, 255)).1)) := by
  induction n with
  | zero => exact Or.inl ⟨rfl, by omega⟩
  | succ n ih =>
    rw [List.range_succ, List.foldl_append, List.foldl_cons, List.foldl_nil] at *
    set sd := (List.range n).foldl (d8Step elevations i j) (0.0, 255) with hsd
    rw [d8Step_eq]
    by_cases hdrop : d8Drop elevations i j n > 0.0
    · rw [if_pos hdrop]
      have hds := d8Slope_pos elevations i j n (floatZero ▸ hdrop)
      by_cases hgt : d8Slope elevations i j n > sd.1
      · rw [if_pos hgt]
        right
        refine ⟨by omega, by exact floatZero ▸ hdrop, rfl, hds, ?_, ?_⟩
        · intro d hd hd2
          rcases Nat.lt_succ_iff_lt_or_eq.mp hd with hlt | heq
          · rcases ih with ⟨-, hnone⟩ | ⟨-, -, -, -, hmax, -⟩
            · exact absurd hd2 (hnone d hlt)
            · exact le_of_lt (lt_of_le_of_lt (hmax d hlt hd2) hgt)
          · subst heq; exact le_refl _
        · intro d hd hd2
          rcases ih with ⟨-, hnone⟩ | ⟨-, -, -, -, hmax, -⟩
          · exact absurd hd2 (hnone d hd)
          · exact lt_of_le_of_lt (hmax d hd hd2) hgt
      · rw [if_neg hgt]
        rcases ih with ⟨heq, -⟩ | ⟨hlt, hdr, hfst, hpos, hmax, hstrict⟩
        · exfalso
          rw [heq] at hgt
          simp only [floatZero] at hgt
          exact hgt hds
        · right
          refine ⟨by omega, hdr, hfst, hpos, ?_, hstrict⟩
          intro d hd hd2
          rcases Nat.lt_succ_iff_lt_or_eq.mp hd with h2 | h2
          · exact hmax d h2 hd2
          · subst h2; linarith [not_lt.mp hgt]
    · rw [if_neg hdrop]
      rcases ih with ⟨heq, hnone⟩ | ⟨hlt, hdr, hfst, hpos, hmax, hstrict⟩
      · left
        refine ⟨heq, ?_⟩
        intro d hd
        rcases Nat.lt_succ_iff_lt_or_eq.mp hd with h2 | h2
        · exact hnone d h2
        · subst h2; exact fun hc => hdrop (floatZero.symm ▸ hc)
      · right
        refine ⟨by omega, hdr, hfst, hpos, ?_, hstrict⟩
        intro d hd hd2
        rcases Nat.lt_succ_iff_lt_or_eq.mp hd with h2 | h2
        · exact hmax d h2 hd2
        · subst h2; exact absurd hd2 (fun hc => hdrop (floatZero.symm ▸ hc))

/-- C6: at every interior cell the computed D8 flow direction is either the
sentinel 255 with no neighbor offering a strictly positive drop, or the
index 0..7 of a neighbor with strictly lower elevation that maximizes drop
over distance weight, where every direction earlier in the fixed order
N, NE, E, SE, S, SW, W, NW has strictly smaller weighted slope (the first
maximizer wins ties). -/
theorem d8_flow_direction_cases (elevations : Grid) (height width i j : ℕ)
    (hint : 1 ≤ i ∧ i < height - 1 ∧ 1 ≤ j ∧ j < width - 1) :
    (compute_d8_flow_directions elevations height width i j = 255 ∧
      ∀ d < 8, ¬ (d8Drop elevations i j d > 0)) ∨
    (compute_d8_flow_directions elevations height width i j < 8 ∧
      d8Drop elevations i j (compute_d8_flow_directions elevations height width i j) > 0 ∧
      (∀ d < 8, d8Drop elevations i j d > 0 →
        d8Slope elevations i j d ≤
          d8Slope elevations i j (compute_d8_flow_directions elevations height width i j)) ∧
      (∀ d < compute_d8_flow_directions elevations height width i j,
        d8Drop elevations i j d > 0 →
        d8Slope elevations i j d <
          d8Slope elevations i j (compute_d8_flow_directions elevations height width i j))) := by
  have hflow : compute_d8_flow_directions elevations height width i j =
      (d8Best elevations i j).2 := by
    unfold compute_d8_flow_directions
    rw [if_pos hint]
  rcases d8_fold_invariant elevations i j 8 with ⟨heq, hnone⟩ | ⟨hlt, hdr, hfst, -, hmax, hstrict⟩
  · left
    constructor
    · rw [hflow]
      unfold d8Best
      rw [heq]
    · exact hnone
  · right
    have hbest : compute_d8_flow_directions elevations height width i j =
        ((List.range 8).foldl (d8Step elevations i j) (0.0, 255)).2 := by
      rw [hflow]; rfl
    rw [hbest]
    exact ⟨hlt, hdr, fun d hd hd2 => hfst ▸ hmax d hd hd2,
      fun d hd hd2 => hfst ▸ hstrict d hd hd2⟩

/-- Witness for d8_flow_direction_cases on the all-zero raster at interior
cell (1, 1) of a 3x3 grid. -/
theorem d8_flow_direction_cases_witness :
    (1 ≤ 1 ∧ 1 < 3 - 1 ∧ 1 ≤ 1 ∧ 1 < 3 - 1) ∧
      ((compute_d8_flow_directions (fun _ _ => 0) 3 3 1 1 = 255 ∧
        ∀ d < 8, ¬ (d8Drop (fun _ _ => 0) 1 1 d > 0)) ∨
      (compute_d8_flow_directions (fun _ _ => 0) 3 3 1 1 < 8 ∧
        d8Drop (fun _ _ => 0) 1 1 (compute_d8_flow_directions (fun _ _ => 0) 3 3 1 1) > 0 ∧
        (∀ d < 8, d8Drop (fun _ _ => 0) 1 1 d > 0 →
          d8Slope (fun _ _ => 0) 1 1 d ≤
            d8Slope (fun _ _ => 0) 1 1 (compute_d8_flow_directions (fun _ _ => 0) 3 3 1 1)) ∧
        (∀ d < compute_d8_flow_directions (fun _ _ => 0) 3 3 1 1,
          d8Drop (fun _ _ => 0) 1 1 d > 0 →
          d8Slope (fun _ _ => 0) 1 1 d <
            d8Slope (fun _ _ => 0) 1 1 (compute_d8_flow_directions (fun _ _ => 0) 3 3 1 1)))) :=
  ⟨by norm_num, d8_flow_direction_cases (fun _ _ => 0) 3 3 1 1 (by norm_num)⟩

/-- Helper: the propagation walk consumes at most 50 - runout_cells loop
iterations: any fuel covering that bound computes the same result, because
every iteration either breaks or increments the step counter by exactly
one and breaks once the counter reaches 50. -/
theorem runoutWalk_fuel_irrelevant (flowDir : ℕ → ℕ → ℕ) (azimuths gradients : Grid)
    (excluded : List Aspect) (height width : ℕ) :
    ∀ f1 f2 cy cx cells intensity R, 50 ≤ cells + f1 → 50 ≤ cells + f2 → cells ≤ 49 →
      runoutWalk flowDir azimuths gradients excluded height width f1 cy cx cells intensity R =
        runoutWalk flowDir azimuths gradients excluded height width f2 cy cx cells intensity R := by
  intro f1
  induction f1 with
  | zero =>
    intro f2 cy cx cells intensity R hf1 hf2 hc
    omega
  | succ f1 ih =>
    intro f2 cy cx cells intensity R hf1 hf2 hc
    obtain ⟨f2x, rfl⟩ : ∃ f2x, f2 = f2x + 1 := ⟨f2 - 1, by omega⟩
    simp only [runoutWalk]
    split_ifs <;>
      first
        | rfl
        | exact ih _ _ _ _ _ _ (by omega) (by omega) (by omega)

/-- C10: every downslope propagation walk in compute_runout_zones
terminates: each loop iteration either breaks (sink direction 255, boundary
cell, step budget reached, or faded intensity) or increments the step
counter by exactly one and stops at 50, so the fuel of 51 used by the model
is sufficient: any larger fuel computes the same result from a fresh
counter. -/
theorem runout_walk_terminates_within_budget (flowDir : ℕ → ℕ → ℕ)
    (azimuths gradients : Grid) (excluded : List Aspect) (height width : ℕ)
    (extra cy cx : ℕ) (intensity : ℝ) (runout : Grid) :
    runoutWalk flowDir azimuths gradients excluded height width (51 + extra)
        cy cx 0 intensity runout =
      runoutWalk flowDir azimuths gradients excluded height width 51
        cy cx 0 intensity runout :=
  runoutWalk_fuel_irrelevant flowDir azimuths gradients excluded height width
    (51 + extra) 51 cy cx 0 intensity runout (by omega) (by omega) (by omega)

/-- C9, counterexample: contrary to the claim, width = 1 does not always
panic: with width = 1 and height = 2 the outer convolution range 2..(height-2)
is empty, so the inner bound width - 2 is never evaluated and the call
returns normally even though the claim says it panics. -/
theorem width_one_height_two_returns_ok :
    ∃ r, compute_azimuths_from_array [0, 0] 1 2 [] = Except.ok r := by
  unfold compute_azimuths_from_array
  norm_num [checkedSub]

/-- C9, amended: with a matching array length, the call returns without
panic whenever width ≥ 2 and height ≥ 2; it panics on the underflow of
height - 2 whenever height < 2; it panics on the underflow of width - 2
whenever width < 2 and height ≥ 5 (the inner bound is evaluated only when
the outer row range 2..(height-2) is non-empty); but for width = 1 with
2 ≤ height ≤ 4 neither subtraction underflows and the call returns
normally, so the size check fails to prevent a panic only for height < 2,
or for width < 2 with height ≥ 5. -/
theorem compute_azimuths_from_array_panic_boundary (elevations_flat : List ℝ)
    (width height : ℕ) (excluded : List Aspect)
    (hlen : elevations_flat.length = width * height) :
    (2 ≤ width → 2 ≤ height →
      ∃ r, compute_azimuths_from_array elevations_flat width height excluded = Except.ok r) ∧
    (height < 2 →
      ∃ e, compute_azimuths_from_array elevations_flat width height excluded =
        Except.error e) ∧
    (width < 2 → 5 ≤ height →
      ∃ e, compute_azimuths_from_array elevations_flat width height excluded =
        Except.error e) ∧
    (width = 1 → 2 ≤ height → height ≤ 4 →
      ∃ r, compute_azimuths_from_array elevations_flat width height excluded = Except.ok r) := by
  have hvalid : ¬ (elevations_flat.length ≠ width * height) := by simp [hlen]
  refine ⟨?_, ?_, ?_, ?_⟩
  · intro hw hh
    unfold compute_azimuths_from_array
    rw [if_neg hvalid]
    split
    · rename_i heq
      simp only [checkedSub] at heq
      split_ifs at heq <;> omega
    · rename_i h2 heq
      split_ifs with hcond
      · obtain ⟨-, hnone⟩ := hcond
        simp only [checkedSub] at hnone
        split_ifs at hnone <;> omega
      · exact ⟨_, rfl⟩
  · intro hh
    unfold compute_azimuths_from_array
    rw [if_neg hvalid]
    split
    · exact ⟨_, rfl⟩
    · rename_i h2 heq
      simp only [checkedSub] at heq
      split_ifs at heq <;> first | omega | simp at heq
  · intro hw hh
    unfold compute_azimuths_from_array
    rw [if_neg hvalid]
    split
    · rename_i heq
      simp only [checkedSub] at heq
      split_ifs at heq <;> omega
    · rename_i h2 heq
      have hh2 : h2 = height - 2 := by
        simp only [checkedSub] at heq
        split_ifs at heq <;> simp at heq <;> omega
      rw [if_pos ⟨by omega, by simp only [checkedSub]; rw [if_neg (by omega)]⟩]
      exact ⟨_, rfl⟩
  · intro hw hh hh4
    unfold compute_azimuths_from_array
    rw [if_neg hvalid]
    split
    · rename_i heq
      simp only [checkedSub] at heq
      split_ifs at heq <;> omega
    · rename_i h2 heq
      have hh2 : h2 = height - 2 := by
        simp only [checkedSub] at heq
        split_ifs at heq <;> simp at heq <;> omega
      rw [if_neg ?_]
      · exact ⟨_, rfl⟩
      · rintro ⟨hgt, -⟩
        omega

/-- Witness for compute_azimuths_from_array_panic_boundary: all four arms at
concrete inputs. -/
theorem compute_azimuths_from_array_panic_boundary_witness :
    (∃ r, compute_azimuths_from_array [0, 0, 0, 0] 2 2 [] = Except.ok r) ∧
      (∃ e, compute_azimuths_from_array [0] 1 1 [] = Except.error e) ∧
      (∃ e, compute_azimuths_from_array [0, 0, 0, 0, 0] 1 5 [] = Except.error e) ∧
      (∃ r, compute_azimuths_from_array [0, 0, 0] 1 3 [] = Except.ok r) :=
  ⟨(compute_azimuths_from_array_panic_boundary [0, 0, 0, 0] 2 2 [] (by norm_num)).1
      (by norm_num) (by norm_num),
    (compute_azimuths_from_array_panic_boundary [0] 1 1 [] (by norm_num)).2.1 (by norm_num),
    (compute_azimuths_from_array_panic_boundary [0, 0, 0, 0, 0] 1 5 [] (by norm_num)).2.2.1
      (by norm_num) (by norm_num),
    (compute_azimuths_from_array_panic_boundary [0, 0, 0] 1 3 [] (by norm_num)).2.2.2
      rfl (by norm_num) (by norm_num)⟩

/-- Helper: when a wrapped neighbor index passes the bounds check and the
current index is itself in bounds of a usize-representable dimension, no
wrap occurred: the neighbor index is the exact integer sum. -/
theorem usizeWrap_step (x : ℕ) (dx : ℤ) (w : ℕ) (hx : x < w) (hw : w < 2 ^ 64)
    (hdx : dx.natAbs ≤ 1) (hin : usizeWrap ((x : ℤ) + dx) < w) :
    (usizeWrap ((x : ℤ) + dx) : ℤ) = (x : ℤ) + dx := by
  unfold usizeWrap at *
  have h64 : (2 : ℤ) ^ 64 = 18446744073709551616 := by norm_num
  rw [h64] at *
  omega

/-- Helper: every entry of the successors list is in bounds, an 8-neighbor
of the expanded node, and satisfies the slope and aspect feasibility
conditions. -/
theorem successorsAux_mem (elevations azimuths gradients : Grid)
    (width height : ℕ) (opts : PathOptions) (x y : ℕ)
    (hw : width < 2 ^ 64) (hh : height < 2 ^ 64) (hx : x < width) (hy : y < height) :
    ∀ dirs : List (ℤ × ℤ), (∀ d ∈ dirs, d.1.natAbs ≤ 1 ∧ d.2.natAbs ≤ 1 ∧ d ≠ (0, 0)) →
    ∀ n c, (n, c) ∈ successorsAux elevations azimuths gradients width height opts x y dirs →
      (n.1 < width ∧ n.2 < height) ∧ stepOk elevations azimuths gradients opts (x, y) n := by
  intro dirs
  induction dirs with
  | nil => intro _ n c hmem; simp [successorsAux] at hmem
  | cons d rest ih =>
    intro hdirs n c hmem
    obtain ⟨hd1, hd2, hd0⟩ := hdirs d (by simp)
    have hrest := fun e he => hdirs e (List.mem_cons_of_mem d he)
    by_cases hin : usizeWrap ((x : ℤ) + d.1) < width ∧ usizeWrap ((y : ℤ) + d.2) < height
    · by_cases hb : gradients (usizeWrap ((y : ℤ) + d.2)) (usizeWrap ((x : ℤ) + d.1)) >
          opts.aspect_gradient_threshold ∧
        ∃ a ∈ opts.excluded_aspects,
          a.contains_azimuth
            (azimuths (usizeWrap ((y : ℤ) + d.2)) (usizeWrap ((x : ℤ) + d.1))) (some 2.5)
      · rw [successorsAux_cons_block elevations azimuths gradients width height opts
          x y d rest hin hb] at hmem
        simp at hmem
      · by_cases hs : (elevations (usizeWrap ((y : ℤ) + d.2)) (usizeWrap ((x : ℤ) + d.1)) -
            elevations y x) /
          distance (x, y) (usizeWrap ((x : ℤ) + d.1), usizeWrap ((y : ℤ) + d.2)) <
            opts.max_gradient
        · rw [successorsAux_cons_ok elevations azimuths gradients width height opts
            x y d rest hin hb hs] at hmem
          rcases List.mem_cons.mp hmem with hhead | htail
          · have hn : n = (usizeWrap ((x : ℤ) + d.1), usizeWrap ((y : ℤ) + d.2)) :=
              congrArg Prod.fst hhead
            subst hn
            have hex : (usizeWrap ((x : ℤ) + d.1) : ℤ) = (x : ℤ) + d.1 :=
              usizeWrap_step x d.1 width hx hw hd1 hin.1
            have hey : (usizeWrap ((y : ℤ) + d.2) : ℤ) = (y : ℤ) + d.2 :=
              usizeWrap_step y d.2 height hy hh hd2 hin.2
            refine ⟨⟨hin.1, hin.2⟩, ?_, hs, ?_⟩
            · constructor
              · intro hc
                apply hd0
                have hfst : (x : ℤ) = (usizeWrap ((x : ℤ) + d.1) : ℤ) := by
                  exact_mod_cast congrArg Prod.fst hc
                have hsnd : (y : ℤ) = (usizeWrap ((y : ℤ) + d.2) : ℤ) := by
                  exact_mod_cast congrArg Prod.snd hc
                rw [hex] at hfst
                rw [hey] at hsnd
                exact Prod.ext (by omega) (by omega)
              · constructor <;> simp only [hex, hey] <;> omega
            · intro hg a ha hc
              exact hb ⟨hg, a, ha, hc⟩
          · exact ih hrest n c htail
        · rw [successorsAux_cons_steep elevations azimuths gradients width height opts
            x y d rest hin hb hs] at hmem
          exact ih hrest n c hmem
    · rw [successorsAux_cons_oob elevations azimuths gradients width height opts
        x y d rest hin] at hmem
      exact ih hrest n c hmem

/-- Helper: any path returned by the search model is the reverse of a
successors chain from the start node. -/
theorem searchAux_chained (succ : ℕ × ℕ → List ((ℕ × ℕ) × ℤ)) (isEnd : ℕ × ℕ → Bool)
    (start : ℕ × ℕ) :
    ∀ (fuel : ℕ) (queue : List (List (ℕ × ℕ) × ℤ)),
      (∀ pc ∈ queue, Chained succ start pc.1) →
      ∀ res, searchAux succ isEnd fuel queue = some res →
        ∃ p, res.1 = p.reverse ∧ Chained succ start p := by
  intro fuel
  induction fuel with
  | zero =>
    intro queue hq res hres
    simp [searchAux] at hres
  | succ fuel ih =>
    intro queue hq res hres
    match queue, hres with
    | [], hres => simp [searchAux] at hres
    | (p, c) :: rest, hres =>
      match p, hres with
      | [], hres =>
        exact ih rest (fun pc hpc => hq pc (List.mem_cons_of_mem _ hpc)) res hres
      | cur :: ptail, hres =>
        rw [searchAux] at hres
        by_cases hend : isEnd cur
        · rw [if_pos hend] at hres
          obtain rfl : ((cur :: ptail).reverse, c) = res := Option.some.inj hres
          exact ⟨cur :: ptail, rfl, hq (cur :: ptail, c) (by simp)⟩
        · rw [if_neg hend] at hres
          apply ih _ ?_ res hres
          intro pc hpc
          rcases List.mem_append.mp hpc with hmem | hmem
          · exact hq pc (List.mem_cons_of_mem _ hmem)
          · obtain ⟨nc, hnc, rfl⟩ := List.mem_map.mp hmem
            exact Chained.step (hq (cur :: ptail, c) (by simp)) (by simpa using hnc)

/-- Helper: a successors chain from an in-bounds start yields an in-bounds
path whose consecutive pairs satisfy the per-edge feasibility relation. -/
theorem chained_path_props (elevations azimuths gradients : Grid)
    (width height : ℕ) (opts : PathOptions) (start : ℕ × ℕ)
    (hw : width < 2 ^ 64) (hh : height < 2 ^ 64)
    (hs : start.1 < width ∧ start.2 < height) :
    ∀ p, Chained (successors elevations azimuths gradients width height opts) start p →
      (∀ q ∈ p, q.1 < width ∧ q.2 < height) ∧
        List.Chain' (stepOk elevations azimuths gradients opts) p.reverse := by
  intro p hp
  induction hp with
  | base =>
    refine ⟨?_, by simp⟩
    intro q hq
    rw [List.mem_singleton.mp hq]
    exact hs
  | @step n c cur ptail hchain hmem ih =>
    obtain ⟨hinb, hchain'⟩ := ih
    have hcur : cur.1 < width ∧ cur.2 < height := hinb cur (by simp)
    have hprops := successorsAux_mem elevations azimuths gradients width height opts
      cur.1 cur.2 hw hh hcur.1 hcur.2 DIRECTIONS (by decide) n c hmem
    obtain ⟨⟨hn1, hn2⟩, hstep⟩ := hprops
    constructor
    · intro q hq
      rcases List.mem_cons.mp hq with rfl | hq2
      · exact ⟨hn1, hn2⟩
      · exact hinb q hq2
    · rw [List.reverse_cons]
      apply List.chain'_append.mpr
      refine ⟨hchain', List.chain'_singleton n, ?_⟩
      intro a ha b hb
      rw [List.getLast?_reverse] at ha
      simp only [List.head?_cons, Option.mem_def, Option.some.injEq] at ha hb
      rw [← ha, ← hb]
      exact hstep

/-- C1: whenever find_path_rs returns a path, every cell of the path is
within the raster bounds, and each consecutive pair of cells satisfies the
per-edge feasibility relation: they are 8-neighbors, the slope of the step
(elevation difference over the 10 m-scaled Euclidean step distance) is
strictly below max_gradient, and when the gradient at the later cell
exceeds aspect_gradient_threshold its azimuth falls within no excluded
aspect at tolerance 2.5. -/
theorem find_path_rs_path_valid (elevations azimuths gradients : Grid)
    (width height : ℕ) (opts : PathOptions) (start stop : ℕ × ℕ) (fuel : ℕ)
    (hw : width < 2 ^ 64) (hh : height < 2 ^ 64) (path : List (ℕ × ℕ)) (c : ℤ)
    (hres : find_path_rs elevations azimuths gradients width height opts start stop fuel =
      some (path, c)) :
    (∀ q ∈ path, q.1 < width ∧ q.2 < height) ∧
      List.Chain' (stepOk elevations azimuths gradients opts) path := by
  unfold find_path_rs at hres
  split_ifs at hres with hb
  obtain ⟨p, hp, hchain⟩ := searchAux_chained
    (successors elevations azimuths gradients width height opts)
    (fun q => q = stop) start fuel [([start], 0)]
    (by
      intro pc hpc
      rw [List.mem_singleton.mp hpc]
      exact Chained.base)
    (path, c) hres
  have hpath : path = p.reverse := hp
  obtain ⟨hinb, hchain'⟩ := chained_path_props elevations azimuths gradients width height
    opts start hw hh ⟨hb.1, hb.2.1⟩ p hchain
  subst hpath
  constructor
  · intro q hq
    exact hinb q (List.mem_reverse.mp hq)
  · exact hchain'

/-- Witness for find_path_rs_path_valid: the 1x1 all-zero raster with
start = stop = (0, 0) returns the singleton path. -/
theorem find_path_rs_path_valid_witness :
    ((1 : ℕ) < 2 ^ 64 ∧
      find_path_rs (fun _ _ => 0) (fun _ _ => 0) (fun _ _ => 0) 1 1 ⟨1, [], 0⟩
        (0, 0) (0, 0) 1 = some ([(0, 0)], 0)) ∧
      ((∀ q ∈ [((0 : ℕ), (0 : ℕ))], q.1 < 1 ∧ q.2 < 1) ∧
        List.Chain' (stepOk (fun _ _ => 0) (fun _ _ => 0) (fun _ _ => 0) ⟨1, [], 0⟩)
          [((0 : ℕ), (0 : ℕ))]) :=
  ⟨⟨by norm_num, rfl⟩,
    find_path_rs_path_valid (fun _ _ => 0) (fun _ _ => 0) (fun _ _ => 0) 1 1 ⟨1, [], 0⟩
      (0, 0) (0, 0) 1 (by norm_num) (by norm_num) [(0, 0)] 0 rfl⟩

/-- Helper: flow reachability is reflexive at every step bound. -/
theorem FlowReachWithin_refl (flowDir : ℕ → ℕ → ℕ) (n : ℕ) (p : ℕ × ℕ) :
    FlowReachWithin flowDir n p p := by
  cases n with
  | zero => rfl
  | succ n => exact Or.inl rfl

/-- Helper: flow reachability is monotone in the step bound. -/
theorem FlowReachWithin_mono (flowDir : ℕ → ℕ → ℕ) :
    ∀ {m n : ℕ}, m ≤ n → ∀ {p q : ℕ × ℕ},
      FlowReachWithin flowDir m p q → FlowReachWithin flowDir n p q := by
  intro m
  induction m with
  | zero =>
    intro n _ p q h
    rw [show q = p from h]
    exact FlowReachWithin_refl flowDir n p
  | succ m ih =>
    intro n hmn p q h
    obtain ⟨n, rfl⟩ : ∃ n2, n = n2 + 1 := ⟨n - 1, by omega⟩
    rcases h with h | ⟨hd, hr⟩
    · exact Or.inl h
    · exact Or.inr ⟨hd, ih (by omega) hr⟩

/-- Helper: a walk of n steps followed by one flow move is a walk of n + 1
steps. -/
theorem FlowReachWithin_snoc (flowDir : ℕ → ℕ → ℕ) :
    ∀ (n : ℕ) (p q : ℕ × ℕ), FlowReachWithin flowDir n p q → flowDir q.1 q.2 ≠ 255 →
      FlowReachWithin flowDir (n + 1) p (flowStep flowDir q) := by
  intro n
  induction n with
  | zero =>
    intro p q h hd
    rw [show q = p from h] at hd ⊢
    exact Or.inr ⟨hd, rfl⟩
  | succ n ih =>
    intro p q h hd
    rcases h with h | ⟨hd2, hr⟩
    · rw [show q = p from h] at hd ⊢
      exact Or.inr ⟨hd, FlowReachWithin_refl flowDir (n + 1) _⟩
    · exact Or.inr ⟨hd2, ih _ _ hr hd⟩

/-- Helper: Manhattan distance satisfies the triangle inequality. -/
theorem manhattanDist_triangle (p q r : ℕ × ℕ) :
    manhattanDist p r ≤ manhattanDist p q + manhattanDist q r := by
  unfold manhattanDist
  omega

/-- Helper: cells of the interior iteration list have positive row and
column index. -/
theorem interiorCells_mem (height width i j : ℕ)
    (h : (i, j) ∈ interiorCells height width) : 1 ≤ i ∧ 1 ≤ j := by
  unfold interiorCells at h
  simp only [List.mem_flatMap, List.mem_map] at h
  obtain ⟨a, ha, b, hb, heq⟩ := h
  obtain ⟨rfl, rfl⟩ : a = i ∧ b = j := by
    constructor <;> [exact congrArg Prod.fst heq; exact congrArg Prod.snd heq]
  constructor
  · exact (List.mem_range'_1.mp ha).1
  · exact (List.mem_range'_1.mp hb).1

/-- Helper: the propagation walk preserves source-reachability of positive
cells: it only marks cells it has reached by following the D8 flow from its
source, within the 50-step budget. -/
theorem runoutWalk_preserves_reach (flowDir : ℕ → ℕ → ℕ) (azimuths gradients : Grid)
    (excluded : List Aspect) (height width : ℕ) :
    ∀ (fuel cy cx cells : ℕ) (intensity : ℝ) (R : Grid) (s : ℕ × ℕ),
      isSourceZone azimuths gradients excluded s.1 s.2 →
      FlowReachWithin flowDir cells s (cy, cx) →
      cells ≤ 49 →
      ReachProp flowDir azimuths gradients excluded R →
      ReachProp flowDir azimuths gradients excluded
        (runoutWalk flowDir azimuths gradients excluded height width fuel
          cy cx cells intensity R) := by
  intro fuel
  induction fuel with
  | zero =>
    intro cy cx cells intensity R s hs hr hc hR
    exact hR
  | succ fuel ih =>
    intro cy cx cells intensity R s hs hr hc hR
    simp only [runoutWalk]
    by_cases h1 : flowDir cy cx = 255
    · rw [if_pos h1]
      exact hR
    · rw [if_neg h1]
      set ny := usizeWrap ((cy : ℤ) + (D8_OFFSETS.getD (flowDir cy cx) (0, 0)).1) with hny
      set nx := usizeWrap ((cx : ℤ) + (D8_OFFSETS.getD (flowDir cy cx) (0, 0)).2) with hnx
      have hreach2 : FlowReachWithin flowDir (cells + 1) s (ny, nx) := by
        rw [hny, hnx]
        exact FlowReachWithin_snoc flowDir cells s (cy, cx) hr h1
      have hRset : ReachProp flowDir azimuths gradients excluded
          (Grid.set R ny nx (max (R ny nx) (intensity * 0.92))) := by
        intro a b hab
        unfold Grid.set at hab
        by_cases hcell : a = ny ∧ b = nx
        · refine ⟨s, hs, ?_⟩
          rw [hcell.1, hcell.2]
          exact FlowReachWithin_mono flowDir (by omega) hreach2
        · rw [if_neg hcell] at hab
          exact hR a b hab
      split_ifs with h2 h3 h4 h5 h6 h7 <;>
        first
          | exact hR
          | exact hRset
          | exact ih _ _ _ _ _ s hs hreach2 (by omega) hRset
          | exact ih _ _ _ _ _ s hs hreach2 (by omega) hR

/-- Helper: one source-scan step preserves source-reachability: it only
blends the source cell itself (reached in 0 steps) and then walks. -/
theorem runoutSourceStep_preserves_reach (flowDir : ℕ → ℕ → ℕ)
    (azimuths gradients : Grid) (excluded : List Aspect) (height width : ℕ)
    (R : Grid) (ij : ℕ × ℕ)
    (hR : ReachProp flowDir azimuths gradients excluded R) :
    ReachProp flowDir azimuths gradients excluded
      (runoutSourceStep flowDir azimuths gradients excluded height width R ij) := by
  simp only [runoutSourceStep]
  split_ifs with h1 h2 h3
  · exact hR
  · have hsrc : isSourceZone azimuths gradients excluded ij.1 ij.2 :=
      ⟨le_of_not_lt h1, h2⟩
    apply runoutWalk_preserves_reach flowDir azimuths gradients excluded height width
      51 ij.1 ij.2 0 1.0 _ ij hsrc rfl (by omega)
    intro a b hab
    unfold Grid.set at hab
    by_cases hcell : a = ij.1 ∧ b = ij.2
    · refine ⟨ij, hsrc, ?_⟩
      rw [hcell.1, hcell.2]
      exact FlowReachWithin_refl flowDir 50 _
    · rw [if_neg hcell] at hab
      exact hR a b hab
  · have hsrc : isSourceZone azimuths gradients excluded ij.1 ij.2 :=
      ⟨le_of_not_lt h1, h2⟩
    exact runoutWalk_preserves_reach flowDir azimuths gradients excluded height width
      51 ij.1 ij.2 0 1.0 R ij hsrc rfl (by omega) hR
  · exact hR

/-- Helper: the whole source-scanning fold preserves source-reachability. -/
theorem foldl_sourceStep_preserves_reach (flowDir : ℕ → ℕ → ℕ)
    (azimuths gradients : Grid) (excluded : List Aspect) (height width : ℕ) :
    ∀ (l : List (ℕ × ℕ)) (R : Grid),
      ReachProp flowDir azimuths gradients excluded R →
      ReachProp flowDir azimuths gradients excluded
        (l.foldl (runoutSourceStep flowDir azimuths gradients excluded height width) R) := by
  intro l
  induction l with
  | nil => intro R hR; exact hR
  | cons x l ih =>
    intro R hR
    rw [List.foldl_cons]
    exact ih _ (runoutSourceStep_preserves_reach flowDir azimuths gradients excluded
      height width R x hR)

/-- Helper: spreading into one neighbor at distance 1 keeps the spread
accumulator invariant. -/
theorem spreadNeighborStep_inv (azimuths gradients : Grid) (excluded : List Aspect)
    (height width : ℕ) (R R2 : Grid) (i j : ℕ) (hij : R i j > 0) (n : ℕ × ℕ)
    (hdist : manhattanDist (i, j) n = 1) (hinv : SpreadInv R R2) :
    SpreadInv R (spreadNeighborStep azimuths gradients excluded height width
      (R i j) R2 n) := by
  unfold spreadNeighborStep
  split_ifs with hb hsrc
  · exact hinv
  · intro a b hab
    unfold Grid.set at hab
    by_cases hcell : a = n.1 ∧ b = n.2
    · right
      refine ⟨(i, j), hij, ?_⟩
      rw [hcell.1, hcell.2]
      exact hdist
    · rw [if_neg hcell] at hab
      exact hinv a b hab
  · exact hinv

/-- Helper: spreading from an interior cell keeps the spread accumulator
invariant. -/
theorem spreadCellStep_inv (azimuths gradients : Grid) (excluded : List Aspect)
    (height width : ℕ) (R R2 : Grid) (ij : ℕ × ℕ) (hi : 1 ≤ ij.1) (hj : 1 ≤ ij.2)
    (hinv : SpreadInv R R2) :
    SpreadInv R (spreadCellStep azimuths gradients excluded height width R R2 ij) := by
  simp only [spreadCellStep]
  split_ifs with hpos
  · have hpos0 : R ij.1 ij.2 > 0 := floatZero ▸ hpos
    rw [List.foldl_cons, List.foldl_cons, List.foldl_cons, List.foldl_cons, List.foldl_nil]
    have s1 := spreadNeighborStep_inv azimuths gradients excluded height width R R2
      ij.1 ij.2 hpos0 (ij.1 - 1, ij.2) (by unfold manhattanDist; omega) hinv
    have s2 := spreadNeighborStep_inv azimuths gradients excluded height width R _
      ij.1 ij.2 hpos0 (ij.1 + 1, ij.2) (by unfold manhattanDist; omega) s1
    have s3 := spreadNeighborStep_inv azimuths gradients excluded height width R _
      ij.1 ij.2 hpos0 (ij.1, ij.2 - 1) (by unfold manhattanDist; omega) s2
    have s4 := spreadNeighborStep_inv azimuths gradients excluded height width R _
      ij.1 ij.2 hpos0 (ij.1, ij.2 + 1) (by unfold manhattanDist; omega) s3
    exact s4
  · exact hinv

/-- Helper: one full lateral spreading iteration satisfies the spread
invariant with respect to its frozen snapshot. -/
theorem spreadOnce_inv (azimuths gradients : Grid) (excluded : List Aspect)
    (height width : ℕ) (R : Grid) :
    SpreadInv R (spreadOnce azimuths gradients excluded height width R) := by
  unfold spreadOnce
  have hgen : ∀ (l : List (ℕ × ℕ)), (∀ x ∈ l, x ∈ interiorCells height width) →
      ∀ R2, SpreadInv R R2 →
        SpreadInv R (l.foldl (spreadCellStep azimuths gradients excluded height width R) R2) := by
    intro l
    induction l with
    | nil => intro _ R2 h2; exact h2
    | cons x l ih =>
      intro hsub R2 h2
      rw [List.foldl_cons]
      apply ih (fun y hy => hsub y (List.mem_cons_of_mem x hy))
      obtain ⟨h1x, h2x⟩ := interiorCells_mem height width x.1 x.2 (hsub x (by simp))
      exact spreadCellStep_inv azimuths gradients excluded height width R R2 x h1x h2x h2
  exact hgen (interiorCells height width) (fun x hx => hx) R (fun a b h => Or.inl h)

/-- Helper: each lateral spreading iteration widens the distance bound of
NearProp by at most one. -/
theorem spreadOnce_near (flowDir : ℕ → ℕ → ℕ) (azimuths gradients : Grid)
    (excluded : List Aspect) (height width : ℕ) (k : ℕ) (R : Grid)
    (hR : NearProp flowDir azimuths gradients excluded k R) :
    NearProp flowDir azimuths gradients excluded (k + 1)
      (spreadOnce azimuths gradients excluded height width R) := by
  intro a b hab
  rcases spreadOnce_inv azimuths gradients excluded height width R a b hab with
    h | ⟨p, hp, hd⟩
  · obtain ⟨s, q, hs, hr, hdk⟩ := hR a b h
    exact ⟨s, q, hs, hr, by omega⟩
  · obtain ⟨s, q, hs, hr, hdk⟩ := hR p.1 p.2 hp
    refine ⟨s, q, hs, hr, ?_⟩
    have htri := manhattanDist_triangle q p (a, b)
    have hdk2 : manhattanDist q p ≤ k := hdk
    omega

/-- C7: with a non-empty excluded-aspect set, every cell with positive
runout intensity lies within Manhattan distance 2 (two 4-neighbor dilation
steps) of some cell reachable in at most 50 D8 flow steps from a source
cell, i.e. a cell whose gradient is at least 0.176 and whose azimuth falls
within an excluded aspect at tolerance 22.5; the source cell itself,
reached in 0 steps and marked by edge blending, counts. -/
theorem runout_positive_implies_near_source (elevations azimuths gradients : Grid)
    (height width : ℕ) (excluded : List Aspect) (hne : excluded ≠ []) (i j : ℕ)
    (hpos : compute_runout_zones elevations azimuths gradients height width excluded i j > 0) :
    ∃ s q : ℕ × ℕ, isSourceZone azimuths gradients excluded s.1 s.2 ∧
      FlowReachWithin (compute_d8_flow_directions elevations height width) 50 s q ∧
      manhattanDist q (i, j) ≤ 2 := by
  simp only [compute_runout_zones] at hpos
  rw [if_neg hne] at hpos
  have h0 : ReachProp (compute_d8_flow_directions elevations height width)
      azimuths gradients excluded
      ((interiorCells height width).foldl
        (runoutSourceStep (compute_d8_flow_directions elevations height width)
          azimuths gradients excluded height width) (fun _ _ => 0.0)) := by
    apply foldl_sourceStep_preserves_reach
    intro a b hab
    norm_num at hab
  have h1 : NearProp (compute_d8_flow_directions elevations height width)
      azimuths gradients excluded 0
      ((interiorCells height width).foldl
        (runoutSourceStep (compute_d8_flow_directions elevations height width)
          azimuths gradients excluded height width) (fun _ _ => 0.0)) := by
    intro a b hab
    obtain ⟨s, hs, hr⟩ := h0 a b hab
    exact ⟨s, (a, b), hs, hr, by unfold manhattanDist; omega⟩
  have h2 := spreadOnce_near (compute_d8_flow_directions elevations height width)
    azimuths gradients excluded height width 0 _ h1
  have h3 := spreadOnce_near (compute_d8_flow_directions elevations height width)
    azimuths gradients excluded height width 1 _ h2
  exact h3 i j hpos


/-- Witness for runout_positive_implies_near_source: on a flat 3x3 elevation
grid whose single interior cell is steep and north-facing, the edge blend
marks that cell and the theorem locates it. -/
theorem runout_positive_implies_near_source_witness :
    (([Aspect.North] : List Aspect) ≠ [] ∧
      compute_runout_zones (fun _ _ => 0) (fun _ _ => 0) demoSteep 3 3
        [Aspect.North] 1 1 > 0) ∧
      (∃ s q : ℕ × ℕ, isSourceZone (fun _ _ => 0) demoSteep [Aspect.North] s.1 s.2 ∧
        FlowReachWithin (compute_d8_flow_directions (fun _ _ => 0) 3 3) 50 s q ∧
        manhattanDist q (1, 1) ≤ 2) := by
  have hne : ([Aspect.North] : List Aspect) ≠ [] := by simp
  have hF : compute_d8_flow_directions (fun _ _ => (0 : ℝ)) 3 3 1 1 = 255 := by
    unfold compute_d8_flow_directions
    rw [if_pos (by norm_num)]
    unfold d8Best
    rw [show List.range 8 = [0, 1, 2, 3, 4, 5, 6, 7] from rfl]
    simp only [List.foldl_cons, List.foldl_nil, d8Step_eq]
    norm_num [d8Drop]
  have hex : ∃ a ∈ ([Aspect.North] : List Aspect),
      a.contains_azimuth ((fun _ _ => (0 : ℝ)) 1 1) (some 22.5) :=
    ⟨Aspect.North, by simp, Or.inl ⟨by norm_num, by norm_num⟩⟩
  have hspread : ∀ R2 : Grid,
      spreadOnce (fun _ _ => 0) demoSteep [Aspect.North] 3 3 R2 = R2 := by
    intro R2
    unfold spreadOnce
    rw [show interiorCells 3 3 = [(1, 1)] from rfl, List.foldl_cons, List.foldl_nil]
    simp only [spreadCellStep]
    split_ifs with h
    · rw [List.foldl_cons, List.foldl_cons, List.foldl_cons, List.foldl_cons,
        List.foldl_nil]
      unfold spreadNeighborStep
      norm_num
    · rfl
  have hpos : compute_runout_zones (fun _ _ => 0) (fun _ _ => 0) demoSteep 3 3
      [Aspect.North] 1 1 > 0 := by
    simp only [compute_runout_zones]
    rw [if_neg hne]
    rw [show interiorCells 3 3 = [(1, 1)] from rfl, List.foldl_cons, List.foldl_nil]
    rw [hspread, hspread]
    simp only [runoutSourceStep]
    rw [if_neg (show ¬ (demoSteep (1, 1).1 (1, 1).2 < START_ZONE_THRESHOLD) by
      norm_num [demoSteep, START_ZONE_THRESHOLD])]
    rw [if_neg (not_not_intro hex)]
    rw [if_pos (show demoSteep (1, 1).1 (1, 1).2 - START_ZONE_THRESHOLD <
        0.35 - START_ZONE_THRESHOLD by norm_num [demoSteep, START_ZONE_THRESHOLD])]
    rw [runoutWalk]
    rw [hF, if_pos rfl]
    unfold Grid.set
    rw [if_pos ⟨rfl, rfl⟩]
    have hv : (0 : ℝ) <
        (1.0 - (demoSteep (1, 1).1 (1, 1).2 - START_ZONE_THRESHOLD) /
          (0.35 - START_ZONE_THRESHOLD)) * 0.5 := by
      norm_num [demoSteep, START_ZONE_THRESHOLD]
    calc (0 : ℝ) < (1.0 - (demoSteep (1, 1).1 (1, 1).2 - START_ZONE_THRESHOLD) /
          (0.35 - START_ZONE_THRESHOLD)) * 0.5 := hv
      _ ≤ _ := le_max_right _ _
  exact ⟨⟨hne, hpos⟩,
    runout_positive_implies_near_source (fun _ _ => 0) (fun _ _ => 0) demoSteep 3 3
      [Aspect.North] hne 1 1 hpos⟩

end Firsttracks
